import Mathlib

/-!
Shallow embedding of the metrics transformation layer of `src/app.py`
(CCA platform Streamlit dashboard).

Python JSON-like values are modelled by `JVal`; dictionary access,
truthiness, slicing, `len`, iteration and `+` follow CPython semantics,
with raised exceptions modelled by `Except.error`.  Numbers are modelled
as integers (all arithmetic the transformation layer performs on them is
exact).  Display-only f-string formatting and the charting calls are not
modelled; the data fed to them (row lists, sort orders) is.
-/

/-- A Python JSON-like value: `None`, `bool`, number, `str`, `list`, `dict`
(dicts keep insertion order, as in CPython 3.7+). -/
inductive JVal : Type where
  | null : JVal
  | bool : Bool → JVal
  | num : Int → JVal
  | str : String → JVal
  | arr : List JVal → JVal
  | obj : List (String × JVal) → JVal
deriving Repr

/-- Python computations that may raise: `Except.error` is a raised exception. -/
abbrev Py (α : Type) : Type := Except String α

mutual

/-- Structural equality of `JVal`, modelling Python `==` on scalars and
sequences (dict comparison order-sensitivity is irrelevant here: the source
only ever compares a value against a string literal). -/
def JVal.beq : JVal → JVal → Bool
  | .null, .null => true
  | .bool a, .bool b => a == b
  | .num a, .num b => a == b
  | .str a, .str b => a == b
  | .arr a, .arr b => JVal.beqList a b
  | .obj a, .obj b => JVal.beqFields a b
  | _, _ => false

/-- Elementwise equality of `JVal` lists. -/
def JVal.beqList : List JVal → List JVal → Bool
  | [], [] => true
  | x :: xs, y :: ys => JVal.beq x y && JVal.beqList xs ys
  | _, _ => false

/-- Elementwise equality of `JVal` field lists. -/
def JVal.beqFields : List (String × JVal) → List (String × JVal) → Bool
  | [], [] => true
  | (k₁, v₁) :: xs, (k₂, v₂) :: ys => k₁ == k₂ && JVal.beq v₁ v₂ && JVal.beqFields xs ys
  | _, _ => false

end

instance : BEq JVal := ⟨JVal.beq⟩

/-- Python truthiness: `None`, `False`, `0`, `""`, `[]`, `{}` are falsy. -/
def truthy : JVal → Bool
  | .null => false
  | .bool b => b
  | .num n => n != 0
  | .str s => s != ""
  | .arr l => !l.isEmpty
  | .obj l => !l.isEmpty

/-- The value is a string. -/
def isStr : JVal → Bool
  | .str _ => true
  | _ => false

/-- The value is a number. -/
def isNum : JVal → Bool
  | .num _ => true
  | _ => false

/-- The underlying string of a string value. -/
def strOf : JVal → Option String
  | .str s => some s
  | _ => none

/-- Python `a or b`: `a` if truthy, else `b`. -/
def pyOr (a b : JVal) : JVal :=
  if truthy a then a else b

/-- First-match lookup in a dict's (insertion-ordered) field list. -/
def lookupField : List (String × JVal) → String → Option JVal
  | [], _ => none
  | (k, v) :: rest, key => if k == key then some v else lookupField rest key

/-- Python `v.get(key, default)`: raises `AttributeError` when `v` is not a
dict (this is how `None.get(...)` fails in the source). -/
def pyDictGet (v : JVal) (key : String) (default : JVal) : Py JVal :=
  match v with
  | .obj fields => .ok ((lookupField fields key).getD default)
  | _ => .error "AttributeError: .get on non-dict"

/-- Python `len`: defined for strings (code points), lists and dicts. -/
def pyLen : JVal → Py Nat
  | .str s => .ok s.length
  | .arr l => .ok l.length
  | .obj l => .ok l.length
  | _ => .error "TypeError: object has no len"

/-- Python `v[:n]` : prefix slice of a string (by code points) or list;
raises `TypeError` otherwise (in particular on `None`). -/
def pySlice (v : JVal) (n : Nat) : Py JVal :=
  match v with
  | .str s => .ok (.str (s.take n))
  | .arr l => .ok (.arr (l.take n))
  | _ => .error "TypeError: value is not subscriptable"

/-- Python `a + b` on the shapes the source adds. -/
def pyAdd : JVal → JVal → Py JVal
  | .num a, .num b => .ok (.num (a + b))
  | .str a, .str b => .ok (.str (a ++ b))
  | .arr a, .arr b => .ok (.arr (a ++ b))
  | _, _ => .error "TypeError: unsupported operand types for +"

/-- Python `for x in v`: lists yield elements, strings yield one-character
strings, dicts yield their keys; other values are not iterable. -/
def pyIter : JVal → Py (List JVal)
  | .arr l => .ok l
  | .str s => .ok (s.toList.map fun c => .str (String.singleton c))
  | .obj fields => .ok (fields.map fun kv => .str kv.1)
  | _ => .error "TypeError: object is not iterable"

/-- Result of `display_overview_metrics`: the three extracted counter values. -/
structure OverviewResult where
  total : JVal
  active : JVal
  inactive : JVal
deriving Repr

/-- Embedding of `display_overview_metrics` (src/app.py lines 173-199):
`user_data = data.get('user', {})` followed by the three
`user_data.get('<k>_count', 0)` extractions shown as metrics. -/
def display_overview_metrics (data : JVal) : Py OverviewResult := do
  let user_data ← pyDictGet data "user" (JVal.obj [])
  let total ← pyDictGet user_data "total_count" (JVal.num 0)
  let active ← pyDictGet user_data "active_count" (JVal.num 0)
  let inactive ← pyDictGet user_data "inactive_count" (JVal.num 0)
  pure ⟨total, active, inactive⟩

/-- One row of the user preview table built in `display_metrics_by_type`
(24-hour and 7-day tabs, src/app.py lines 254-259). -/
structure RowBasic where
  displayName : JVal
  userId : JVal
  created : JVal
deriving Repr

/-- One row of the 30-day preview table (src/app.py lines 296-306; adds
occupation and slug columns). -/
structure Row30 where
  displayName : JVal
  userId : JVal
  created : JVal
  occupation : JVal
  slug : JVal
deriving Repr

/-- The 'User ID' cell (src/app.py line 257):
`item.get('user_id', 'N/A')[:8] + '...' if len(item.get('user_id', '')) > 8
else item.get('user_id', 'N/A')`. -/
def rowUserId (item : JVal) : Py JVal := do
  let u ← pyDictGet item "user_id" (.str "")
  let n ← pyLen u
  if n > 8 then do
    let u' ← pyDictGet item "user_id" (.str "N/A")
    let s ← pySlice u' 8
    pyAdd s (.str "...")
  else
    pyDictGet item "user_id" (.str "N/A")

/-- The 'Created' cell (src/app.py line 258):
`item.get('created', 'N/A')[:10] if item.get('created') != 'N/A' else 'N/A'`
(note the condition reads the key with default `None`). -/
def rowCreated (item : JVal) : Py JVal := do
  let c ← pyDictGet item "created" JVal.null
  if c.beq (.str "N/A") then
    pure (.str "N/A")
  else do
    let c' ← pyDictGet item "created" (.str "N/A")
    pySlice c' 10

/-- One 24-hour/7-day preview row (src/app.py lines 255-259). -/
def rowBasic (item : JVal) : Py RowBasic := do
  let dn ← pyDictGet item "display_name" (.str "N/A")
  let uid ← rowUserId item
  let cr ← rowCreated item
  pure ⟨dn, uid, cr⟩

/-- One 30-day preview row (src/app.py lines 296-306). -/
def row30 (item : JVal) : Py Row30 := do
  let o0 ← pyDictGet item "occupation" JVal.null
  let occupation ← if truthy o0 then pyDictGet item "occupation" (.str "") else pure (JVal.str "")
  let s0 ← pyDictGet item "slug" JVal.null
  let slug ← if truthy s0 then pyDictGet item "slug" (.str "") else pure (JVal.str "")
  let dn ← pyDictGet item "display_name" (.str "N/A")
  let uid ← rowUserId item
  let cr ← rowCreated item
  pure ⟨dn, uid, cr, if truthy occupation then occupation else .str "N/A",
        if truthy slug then slug else .str "N/A"⟩

/-- The row-building loop of the 24-hour/7-day tabs. -/
def buildRowsBasic : List JVal → Py (List RowBasic)
  | [] => pure []
  | item :: rest => do
      let r ← rowBasic item
      let rs ← buildRowsBasic rest
      pure (r :: rs)

/-- The row-building loop of the 30-day tab. -/
def buildRows30 : List JVal → Py (List Row30)
  | [] => pure []
  | item :: rest => do
      let r ← row30 item
      let rs ← buildRows30 rest
      pure (r :: rs)

/-- The count metric and preview table shown in one 24-hour/7-day tab. -/
structure PeriodView where
  count : JVal
  rows : List RowBasic
deriving Repr

/-- The count metric and preview table shown in the 30-day tab. -/
structure Period30View where
  count : JVal
  rows : List Row30
deriving Repr

/-- One 24-hour/7-day tab of `display_metrics_by_type`
(src/app.py lines 246-265): read `period_data`, the count, and the preview
list; build table rows only when the preview is truthy. -/
def periodViewBasic (type_data : JVal) (periodKey : String) : Py PeriodView := do
  let period_data ← pyDictGet type_data periodKey (JVal.obj [])
  let count ← pyDictGet period_data "count" (JVal.num 0)
  let preview ← pyDictGet period_data "preview" (JVal.arr [])
  if truthy preview then do
    let items ← pyIter preview
    let rows ← buildRowsBasic items
    pure ⟨count, rows⟩
  else
    pure ⟨count, []⟩

/-- The 30-day tab of `display_metrics_by_type` (src/app.py lines 288-312). -/
def periodView30 (type_data : JVal) (periodKey : String) : Py Period30View := do
  let period_data ← pyDictGet type_data periodKey (JVal.obj [])
  let count ← pyDictGet period_data "count" (JVal.num 0)
  let preview ← pyDictGet period_data "preview" (JVal.arr [])
  if truthy preview then do
    let items ← pyIter preview
    let rows ← buildRows30 items
    pure ⟨count, rows⟩
  else
    pure ⟨count, []⟩

/-- The three tabs of `display_metrics_by_type` for one user type. -/
structure TypeMetricsResult where
  h24 : PeriodView
  d7 : PeriodView
  d30 : Period30View
deriving Repr

/-- Embedding of `display_metrics_by_type` (src/app.py lines 237-312). -/
def display_metrics_by_type (data : JVal) (user_type : String) : Py TypeMetricsResult := do
  let user_data ← pyDictGet data "user" (JVal.obj [])
  let types_data ← pyDictGet user_data "types" (JVal.obj [])
  let type_data ← pyDictGet types_data user_type (JVal.obj [])
  let h24 ← periodViewBasic type_data "new_24_hours"
  let d7 ← periodViewBasic type_data "new_7_days"
  let d30 ← periodView30 type_data "new_30_days"
  pure ⟨h24, d7, d30⟩

/-- Coerce a `JVal` to its integer value; raises where CPython raises a
`TypeError` when a non-number reaches an arithmetic or numeric-sort context. -/
def asNum : JVal → Py Int
  | .num n => .ok n
  | _ => .error "TypeError: value is not a number"

/-- Insert `x` into `l` before the first element whose key is not smaller:
one step of a stable ascending insertion sort. -/
def insertAscBy {α : Type} (key : α → Int) (x : α) : List α → List α
  | [] => [x]
  | y :: ys => if key y < key x then y :: insertAscBy key x ys else x :: y :: ys

/-- Stable ascending insertion sort (equal keys keep their input order). -/
def isortAscBy {α : Type} (key : α → Int) : List α → List α
  | [] => []
  | x :: xs => insertAscBy key x (isortAscBy key xs)

/-- Descending sort with ties kept in first-seen order. This is the order
produced both by CPython's `sorted(..., key=..., reverse=True)` (CPython
reverses the list, runs its stable ascending sort, and reverses again; the
documentation guarantees that `reverse=True` keeps ties in their original
order) and by pandas `DataFrame.sort_values(by, ascending=False)` (whose
`nargsort` reverses the values and the positional index, runs an ascending
argsort, and reverses the resulting indexer — exact whenever the underlying
argsort is stable, which holds for numpy's default kind on arrays of at
most 16 elements, where its introsort is a plain insertion sort). -/
def stableSortDescBy {α : Type} (key : α → Int) (l : List α) : List α :=
  (isortAscBy key l.reverse).reverse

/-- One row of the per-country breakdown table (src/app.py lines 350-361). -/
structure BRow where
  country : String
  customer : Int
  artist : Int
  business : Int
  total : Int
deriving Repr

/-- One point of the recent-signups map (src/app.py lines 375-382). -/
structure MapPoint where
  lat : JVal
  lon : JVal
  country : String
  userType : String
  name : JVal
  created : JVal
deriving Repr

/-- One per-type 30-day count of a country (src/app.py lines 352-354):
`(country_info.get(ut) or {}).get('count', 0) or 0`, which then flows into
the `customer + artist + business` sum. -/
def typeCount30 (country_info : JVal) (ut : String) : Py Int := do
  let t0 ← pyDictGet country_info ut JVal.null
  let c0 ← pyDictGet (pyOr t0 (JVal.obj [])) "count" (JVal.num 0)
  asNum (pyOr c0 (JVal.num 0))

/-- One row of the per-country breakdown (src/app.py lines 351-361). -/
def breakdownRow (cc : String) (country_info : JVal) : Py BRow := do
  let customer ← typeCount30 country_info "customer"
  let artist ← typeCount30 country_info "artist"
  let business ← typeCount30 country_info "business"
  pure ⟨cc, customer, artist, business, customer + artist + business⟩

/-- The breakdown rows in `by_country` insertion order, before sorting. -/
def breakdownRowsUnsorted : List (String × JVal) → Py (List BRow)
  | [] => pure []
  | (cc, info) :: rest => do
      let r ← breakdownRow cc info
      let rs ← breakdownRowsUnsorted rest
      pure (r :: rs)

/-- The per-country breakdown table of `display_country_insights`
(src/app.py lines 349-364): one row per country in insertion order, then
`sort_values('Total (30d)', ascending=False)`.  The sort is modelled by
`stableSortDescBy`, which agrees with pandas' default `kind='quicksort'`
exactly for frames of at most 16 rows (numpy's insertion-sort cutoff); for
larger frames only size-independent facts (raise-freedom, membership,
descending order of totals) are faithful, and the tie order is NOT — any
tie-order theorem about this table must carry the 16-row bound. -/
def breakdownTable (by_country : List (String × JVal)) : Py (List BRow) := do
  let rows ← breakdownRowsUnsorted by_country
  pure (stableSortDescBy BRow.total rows)

/-- The inner map-point loop (src/app.py lines 371-382): keep an item only
when both `latitude` and `longitude` are not `None`. -/
def pointsOfItems (cc ut : String) : List JVal → Py (List MapPoint)
  | [] => pure []
  | item :: rest => do
      let lat ← pyDictGet item "latitude" JVal.null
      let lon ← pyDictGet item "longitude" JVal.null
      if !(lat.beq JVal.null) && !(lon.beq JVal.null) then do
        let name ← pyDictGet item "display_name" (.str "N/A")
        let cr0 ← pyDictGet item "created" JVal.null
        let cr ← pySlice (pyOr cr0 (.str "")) 19
        let rest' ← pointsOfItems cc ut rest
        pure (⟨lat, lon, cc, ut.capitalize, name, cr⟩ :: rest')
      else
        pointsOfItems cc ut rest

/-- `previews = (country_info.get(user_type) or {}).get('preview') or []`
(src/app.py line 370), made iterable. -/
def previewsOf (country_info : JVal) (ut : String) : Py (List JVal) := do
  let t ← pyDictGet country_info ut JVal.null
  let pv ← pyDictGet (pyOr t (JVal.obj [])) "preview" JVal.null
  pyIter (pyOr pv (JVal.arr []))

/-- Map points contributed by one country, in the source's fixed
customer/artist/business order (src/app.py lines 369-382). -/
def pointsOfCountry (cc : String) (country_info : JVal) : Py (List MapPoint) := do
  let pc ← previewsOf country_info "customer" >>= pointsOfItems cc "customer"
  let pa ← previewsOf country_info "artist" >>= pointsOfItems cc "artist"
  let pb ← previewsOf country_info "business" >>= pointsOfItems cc "business"
  pure (pc ++ pa ++ pb)

/-- The outer map-point loop over `by_country.items()` (src/app.py line 368). -/
def pointsOfCountries : List (String × JVal) → Py (List MapPoint)
  | [] => pure []
  | (cc, info) :: rest => do
      let ps ← pointsOfCountry cc info
      let rest' ← pointsOfCountries rest
      pure (ps ++ rest')

/-- The aggregate `total_new_last_30d` sum (src/app.py lines 328-330):
`total += country_info.get('total_last_30_days', 0) or 0` per country. -/
def totalNew30dSum : List (String × JVal) → Py Int
  | [] => pure 0
  | (_, info) :: rest => do
      let v ← pyDictGet info "total_last_30_days" (JVal.num 0)
      let n ← asNum (pyOr v (JVal.num 0))
      let s ← totalNew30dSum rest
      pure (n + s)

/-- The bar-chart rows (src/app.py lines 339-344), before sorting. Any
country with a truthy non-numeric `total_last_30_days` has already raised in
the aggregate sum above, so coercing to an integer here is faithful within
`display_country_insights`. -/
def chartRowsUnsorted : List (String × JVal) → Py (List (String × Int))
  | [] => pure []
  | (cc, info) :: rest => do
      let v ← pyDictGet info "total_last_30_days" (JVal.num 0)
      let n ← asNum (pyOr v (JVal.num 0))
      let rs ← chartRowsUnsorted rest
      pure ((cc, n) :: rs)

/-- Everything `display_country_insights` derives from the payload. -/
structure CountryInsightsView where
  countries : List String
  totalNew : Int
  chart : List (String × Int)
  breakdown : List BRow
  points : List MapPoint
deriving Repr

/-- Embedding of `display_country_insights` (src/app.py lines 315-386).
Returns `none` for the early 'No country-based insights available' exit.
The `or`-chain on line 318 is modelled eagerly: the success of the first
`.get` guarantees `data` is a dict, so the second `.get` cannot raise and
short-circuiting is unobservable. -/
def display_country_insights (data : JVal) : Py (Option CountryInsightsView) := do
  let user_data ← pyDictGet data "user" (JVal.obj [])
  let bc0 ← pyDictGet user_data "by_country" JVal.null
  let bc1 ← pyDictGet data "by_country" JVal.null
  let by_country := pyOr bc0 (pyOr bc1 (JVal.obj []))
  if !truthy by_country then
    pure none
  else do
    let fields ← match by_country with
      | .obj fs => pure fs
      | _ => Except.error "AttributeError: .keys on non-dict"
    let countries := fields.map (·.1)
    let total ← totalNew30dSum fields
    let chartU ← chartRowsUnsorted fields
    let chart := stableSortDescBy (·.2) chartU
    let breakdown ← breakdownTable fields
    let points ← pointsOfCountries fields
    pure (some ⟨countries, total, chart, breakdown, points⟩)

/-- The `total` rollup (src/app.py line 402):
`insights.get('total_last_30d', len(preview) if isinstance(preview, list)
else 0) or 0`, where `preview` is the value of line 394 after `or []`. -/
def bookingTotal (insights preview : JVal) : Py JVal := do
  let dflt := match preview with
    | .arr l => JVal.num l.length
    | _ => JVal.num 0
  let t ← pyDictGet insights "total_last_30d" dflt
  pure (pyOr t (JVal.num 0))

/-- Whether a value may be a Python set or dict key (hashable). -/
def pyHashable : JVal → Bool
  | .arr _ => false
  | .obj _ => false
  | _ => true

/-- The truthy `currency` values of the preview items, in iteration order:
the source sequence of the set comprehension on src/app.py line 408. -/
def collectCurrencies : List JVal → Py (List JVal)
  | [] => pure []
  | item :: rest => do
      let c ← pyDictGet item "currency" JVal.null
      if truthy c then
        if pyHashable c then do
          let rest' ← collectCurrencies rest
          pure (c :: rest')
        else Except.error "TypeError: unhashable currency"
      else collectCurrencies rest

/-- Deduplication keeping first occurrences (set membership). -/
def dedupFirst : List JVal → List JVal
  | [] => []
  | x :: xs => x :: (dedupFirst xs).filter (fun y => !(y.beq x))

/-- Ascending insertion sort on strings. -/
def insertStrAsc (x : String) : List String → List String
  | [] => [x]
  | y :: ys => if y < x then y :: insertStrAsc x ys else x :: y :: ys

/-- Ascending sort on strings (`sorted` on string data). -/
def isortStrAsc : List String → List String
  | [] => []
  | x :: xs => insertStrAsc x (isortStrAsc xs)

/-- `sorted(<currency set>)` (src/app.py line 408).  Python's set iteration
order is arbitrary but `sorted` normalises it; comparisons only happen when
the set has at least two members, and are modelled only for all-string
sets — CPython raises for mixed scalar types, and no claim exercises a
homogeneous non-string currency set. -/
def pySortedOfSet (cs : List JVal) : Py (List JVal) :=
  let ds := dedupFirst cs
  if ds.length ≤ 1 then .ok ds
  else if ds.all isStr then .ok ((isortStrAsc (ds.filterMap strOf)).map JVal.str)
  else .error "TypeError: unorderable types in sorted"

/-- The currency-context detection (src/app.py lines 408-409):
`currencies = sorted({item.get('currency') for item in preview if
item.get('currency')})` and `currency_label = currencies[0] if
len(currencies) == 1 else None`. -/
def currency_label (preview : JVal) : Py JVal := do
  let items ← pyIter preview
  let cs ← collectCurrencies items
  let sortedCs ← pySortedOfSet cs
  pure (if sortedCs.length == 1 then sortedCs.headD JVal.null else JVal.null)

/-- The status-chart rows (src/app.py line 432): `{'Status': k, 'Count': v
or 0}` per `by_status` item, coerced to integers as the subsequent
`sort_values('Count', ascending=False)` requires for any mixed data (an
all-string status map would defer its failure to the charting layer, a case
outside this model and every claim). -/
def statusChartRows : List (String × JVal) → Py (List (String × Int))
  | [] => pure []
  | (k, v) :: rest => do
      let n ← asNum (pyOr v (JVal.num 0))
      let rs ← statusChartRows rest
      pure ((k, n) :: rs)

/-- In-place counter update of an insertion-ordered dict:
`daily_counts[day] = daily_counts.get(day, 0) + 1` (src/app.py line 443). -/
def upsertCount (m : List (String × Int)) (k : String) : List (String × Int) :=
  match m with
  | [] => [(k, 1)]
  | (k', n) :: rest => if k' == k then (k', n + 1) :: rest else (k', n) :: upsertCount rest k

/-- The bookings-per-day loop (src/app.py lines 438-443):
`dt = item.get('from_time') or item.get('created')`, skip falsy `dt`,
bucket by `dt[:10]`.  A truthy list `dt` slices but then raises as an
unhashable dict key, exactly as in CPython. -/
def buildDailyCounts : List JVal → List (String × Int) → Py (List (String × Int))
  | [], acc => pure acc
  | item :: rest, acc => do
      let ft ← pyDictGet item "from_time" JVal.null
      let cr ← pyDictGet item "created" JVal.null
      let dt := pyOr ft cr
      if truthy dt then do
        let day ← pySlice dt 10
        match day with
        | .str s => buildDailyCounts rest (upsertCount acc s)
        | _ => Except.error "TypeError: unhashable day key"
      else buildDailyCounts rest acc

/-- Ascending insertion sort on string-keyed pairs, one step. -/
def insertStrPairAsc (x : String × Int) : List (String × Int) → List (String × Int)
  | [] => [x]
  | y :: ys => if y.1 < x.1 then y :: insertStrPairAsc x ys else x :: y :: ys

/-- `sorted(daily_counts.items())` (src/app.py line 445): ascending by the
day string; the keys of a dict are pairwise distinct, so the tuple
comparison never reaches the count component. -/
def isortStrPairsAsc : List (String × Int) → List (String × Int)
  | [] => []
  | x :: xs => insertStrPairAsc x (isortStrPairsAsc xs)

/-- In-place revenue update of the insertion-ordered `provider_rev` dict:
`provider_rev[provider] = provider_rev.get(provider, 0) + price`
(src/app.py line 454). -/
def upsertRev (m : List (JVal × Int)) (k : JVal) (price : Int) : List (JVal × Int) :=
  match m with
  | [] => [(k, price)]
  | (k', n) :: rest =>
      if k'.beq k then (k', n + price) :: rest else (k', n) :: upsertRev rest k price

/-- The provider-revenue loop (src/app.py lines 450-454):
`provider = item.get('service_provider_name') or 'Unknown'` and
`price = item.get('total_price') or 0` summed per provider. -/
def buildProviderRev : List JVal → List (JVal × Int) → Py (List (JVal × Int))
  | [], acc => pure acc
  | item :: rest, acc => do
      let p0 ← pyDictGet item "service_provider_name" JVal.null
      let provider := pyOr p0 (.str "Unknown")
      if pyHashable provider then do
        let pr0 ← pyDictGet item "total_price" JVal.null
        let price ← asNum (pyOr pr0 (JVal.num 0))
        buildProviderRev rest (upsertRev acc provider price)
      else Except.error "TypeError: unhashable provider"

/-- The top-provider ranking (src/app.py lines 450-456): aggregate revenue
per provider, then `sorted(provider_rev.items(), key=lambda x: x[1],
reverse=True)[:5]`. -/
def topProviders (items : List JVal) : Py (List (JVal × Int)) := do
  let rev ← buildProviderRev items []
  pure ((stableSortDescBy (·.2) rev).take 5)

/-- One row of the booking preview table (src/app.py lines 465-475). -/
structure BookingRow where
  bookingId : JVal
  status : JVal
  bType : JVal
  totalPrice : JVal
  currency : JVal
  fromTime : JVal
  toTime : JVal
  customer : JVal
  provider : JVal
deriving Repr

/-- The cells of one booking preview row after 'Booking ID'
(src/app.py lines 467-474). -/
def bookingRowRest (item : JVal) (bookingId : JVal) : Py BookingRow := do
  let status ← pyDictGet item "status" (.str "N/A")
  let ty ← pyDictGet item "type" (.str "N/A")
  let totalPrice ← pyDictGet item "total_price" (JVal.num 0)
  let currency ← pyDictGet item "currency" (.str "")
  let f0 ← pyDictGet item "from_time" JVal.null
  let fromTime ← pySlice (pyOr f0 (.str "")) 19
  let t0 ← pyDictGet item "to_time" JVal.null
  let toTime ← pySlice (pyOr t0 (.str "")) 19
  let customer ← pyDictGet item "customer_name" (.str "N/A")
  let provider ← pyDictGet item "service_provider_name" (.str "N/A")
  pure ⟨bookingId, status, ty, totalPrice, currency, fromTime, toTime, customer, provider⟩

/-- One booking preview row (src/app.py lines 465-475): the 'Booking ID'
cell is `(item.get('booking_id') or '')[:8] + '...' if item.get('booking_id')
else 'N/A'` — the condition is evaluated first, and the truthy branch always
appends the ellipsis — followed by the remaining cells (`bookingRowRest`). -/
def bookingRow (item : JVal) : Py BookingRow := do
  let b0 ← pyDictGet item "booking_id" JVal.null
  let bookingId ←
    if truthy b0 then do
      let s ← pySlice (pyOr b0 (.str "")) 8
      pyAdd s (.str "...")
    else pure (JVal.str "N/A")
  bookingRowRest item bookingId

/-- The booking preview table loop (src/app.py lines 463-475). -/
def buildBookingRows : List JVal → Py (List BookingRow)
  | [] => pure []
  | item :: rest => do
      let r ← bookingRow item
      let rs ← buildBookingRows rest
      pure (r :: rs)

/-- Everything `display_booking_insights` derives from the payload. -/
structure BookingInsightsView where
  total : JVal
  completed : JVal
  booked : JVal
  revenue : JVal
  avgValue : JVal
  currencyLabel : JVal
  statusChart : List (String × Int)
  daily : List (String × Int)
  top : List (JVal × Int)
  rows : List BookingRow
deriving Repr

/-- The body of `display_booking_insights` after the guard
(src/app.py lines 402-477), over the already-read `insights` and
(`or []`-normalised) `preview`. -/
def display_booking_insights_body (insights preview : JVal) : Py BookingInsightsView := do
  let total ← bookingTotal insights preview
  let bs0 ← pyDictGet insights "by_status" JVal.null
  let by_status := pyOr bs0 (JVal.obj [])
  let revenue ← pyDictGet insights "total_revenue_30d" JVal.null
  let avgValue ← pyDictGet insights "avg_booking_value" JVal.null
  let label ← currency_label preview
  let c0 ← pyDictGet by_status "COMPLETED" (JVal.num 0)
  let completed := pyOr c0 (JVal.num 0)
  let b0 ← pyDictGet by_status "BOOKED" (JVal.num 0)
  let booked := pyOr b0 (JVal.num 0)
  let statusChart ←
    if truthy by_status then do
      let fs ← match by_status with
        | .obj fs => pure fs
        | _ => Except.error "AttributeError: .items on non-dict"
      let rowsU ← statusChartRows fs
      pure (stableSortDescBy (·.2) rowsU)
    else pure []
  let daily ←
    if truthy preview then do
      let items ← pyIter preview
      let dc ← buildDailyCounts items []
      pure (isortStrPairsAsc dc)
    else pure []
  let top ←
    if truthy preview then do
      let items ← pyIter preview
      topProviders items
    else pure []
  let rows ←
    if truthy preview then do
      let items ← pyIter preview
      buildBookingRows items
    else pure []
  pure ⟨total, completed, booked, revenue, avgValue, label, statusChart, daily, top, rows⟩

/-- Embedding of `display_booking_insights` (src/app.py lines 389-477), in
source order: the `insights` read on line 393 happens before the
`if not last_30` early exit on line 398, so a present non-dict
`last_30_days` raises even when falsy.  Returns `none` for the early
'No booking data available' exit. -/
def display_booking_insights (data : JVal) : Py (Option BookingInsightsView) := do
  let booking ← pyDictGet data "booking" (JVal.obj [])
  let last_30 ← pyDictGet booking "last_30_days" (JVal.obj [])
  let insights ← pyDictGet last_30 "insights" (JVal.obj [])
  let pv0 ← pyDictGet last_30 "preview" JVal.null
  let preview := pyOr pv0 (JVal.arr [])
  if !truthy last_30 then
    pure none
  else do
    let body ← display_booking_insights_body insights preview
    pure (some body)

/-! Well-shapedness predicates.  `ws*` describes payloads whose PRESENT
values have the shapes the source dereferences (dicts where `.get` is
called, strings where `len`/slicing applies, numbers where values are
summed, sorted numerically, or formatted); any key may be absent.  These
are the hypotheses of the amended totality claim: absence never raises,
while present null/wrong-shaped values may. -/

/-- The field `k` of `fs` is absent or its value satisfies `p`. -/
def fieldIs (fs : List (String × JVal)) (k : String) (p : JVal → Bool) : Bool :=
  match lookupField fs k with
  | none => true
  | some v => p v

/-- Falsy (normalised away by `or`-defaulting) or a string. -/
def strOrFalsy (v : JVal) : Bool := !truthy v || isStr v

/-- Falsy (normalised away by `or`-defaulting) or a number. -/
def numOrFalsy (v : JVal) : Bool := !truthy v || isNum v

/-- Null (skipped by `is not None` guards) or a number. -/
def numOrNull (v : JVal) : Bool := v.beq JVal.null || isNum v

/-- A user preview item as `display_metrics_by_type` dereferences it. -/
def wsItemUser : JVal → Bool
  | .obj fs => fieldIs fs "user_id" isStr && fieldIs fs "created" isStr
  | _ => false

/-- A `preview` value: absent callers pass `[]`; a present value must be
falsy (skipped) or a list of well-shaped items. -/
def wsPreviewWith (itemOk : JVal → Bool) (v : JVal) : Bool :=
  !truthy v || (match v with | .arr l => l.all itemOk | _ => false)

/-- A period record (`new_24_hours` / `new_7_days` / `new_30_days`). -/
def wsPeriodData : JVal → Bool
  | .obj fs => fieldIs fs "count" isNum && fieldIs fs "preview" (wsPreviewWith wsItemUser)
  | _ => false

/-- A per-type record under `user.types`. -/
def wsTypeData : JVal → Bool
  | .obj fs => fieldIs fs "new_24_hours" wsPeriodData && fieldIs fs "new_7_days" wsPeriodData
      && fieldIs fs "new_30_days" wsPeriodData
  | _ => false

/-- The `user.types` mapping. -/
def wsTypes : JVal → Bool
  | .obj fs => fieldIs fs "customer" wsTypeData && fieldIs fs "artist" wsTypeData
      && fieldIs fs "business" wsTypeData
  | _ => false

/-- A country preview item as the map-point loop dereferences it. -/
def wsItemGeo : JVal → Bool
  | .obj fs => fieldIs fs "created" strOrFalsy
  | _ => false

/-- A per-type block of a country record
(`(country_info.get(ut) or {})`): falsy or a well-shaped dict. -/
def wsCountryTypeBlock (v : JVal) : Bool :=
  !truthy v || (match v with
    | .obj fs => fieldIs fs "count" numOrFalsy && fieldIs fs "preview" (wsPreviewWith wsItemGeo)
    | _ => false)

/-- One country record of `by_country`. -/
def wsCountryInfo : JVal → Bool
  | .obj fs => fieldIs fs "total_last_30_days" numOrFalsy
      && fieldIs fs "customer" wsCountryTypeBlock && fieldIs fs "artist" wsCountryTypeBlock
      && fieldIs fs "business" wsCountryTypeBlock
  | _ => false

/-- A `by_country` value: falsy (early exit) or a dict of country records. -/
def wsByCountryVal (v : JVal) : Bool :=
  !truthy v || (match v with | .obj fs => fs.all (fun kv => wsCountryInfo kv.2) | _ => false)

/-- The `user` record. -/
def wsUserData : JVal → Bool
  | .obj fs => fieldIs fs "total_count" isNum && fieldIs fs "active_count" isNum
      && fieldIs fs "inactive_count" isNum && fieldIs fs "types" wsTypes
      && fieldIs fs "by_country" wsByCountryVal
  | _ => false

/-- A booking preview item as `display_booking_insights` dereferences it. -/
def wsBookingItem : JVal → Bool
  | .obj fs => fieldIs fs "currency" strOrFalsy && fieldIs fs "from_time" strOrFalsy
      && fieldIs fs "to_time" strOrFalsy && fieldIs fs "created" strOrFalsy
      && fieldIs fs "booking_id" strOrFalsy && fieldIs fs "total_price" numOrFalsy
      && fieldIs fs "service_provider_name" strOrFalsy
  | _ => false

/-- The `booking.last_30_days.insights` record. -/
def wsInsights : JVal → Bool
  | .obj fs => fieldIs fs "total_last_30d" numOrFalsy
      && fieldIs fs "by_status"
          (fun v => !truthy v ||
            (match v with | .obj sfs => sfs.all (fun kv => numOrFalsy kv.2) | _ => false))
      && fieldIs fs "total_revenue_30d" numOrNull && fieldIs fs "avg_booking_value" numOrNull
  | _ => false

/-- The `booking.last_30_days` record. -/
def wsLast30 : JVal → Bool
  | .obj fs => fieldIs fs "insights" wsInsights && fieldIs fs "preview" (wsPreviewWith wsBookingItem)
  | _ => false

/-- The `booking` record. -/
def wsBookingData : JVal → Bool
  | .obj fs => fieldIs fs "last_30_days" wsLast30
  | _ => false

/-- A well-shaped payload: every present value has the dereferenced shape;
any subset of keys may be absent. -/
def wsPayload : JVal → Bool
  | .obj fs => fieldIs fs "user" wsUserData && fieldIs fs "by_country" wsByCountryVal
      && fieldIs fs "booking" wsBookingData
  | _ => false

/-! Specification-side definitions, written from the words of spec.md
section 4.1 («countryInsights», «bookingInsights») for comparison with the
code-derived projections above. -/

/-- Total defaulting getter (spec.md section 9: «optional-field accessors
returning typed defaults»): the field's value, or `None`. -/
def jget (v : JVal) (k : String) : JVal :=
  match v with
  | .obj fs => (lookupField fs k).getD JVal.null
  | _ => JVal.null

/-- Spec-side preview list of one user type of a country record. -/
def specPreviewItems (info : JVal) (ut : String) : List JVal :=
  match pyOr (jget (pyOr (jget info ut) (JVal.obj [])) "preview") (JVal.arr []) with
  | .arr l => l
  | _ => []

/-- Spec-side: the item «carries both latitude and longitude (both
non-null)» (spec.md section 4.1, mapPoints). -/
def hasCoords (item : JVal) : Bool :=
  !((jget item "latitude").beq JVal.null) && !((jget item "longitude").beq JVal.null)

/-- Spec-side point record projected from a qualifying preview item. -/
def specPoint (cc ut : String) (item : JVal) : MapPoint :=
  ⟨jget item "latitude", jget item "longitude", cc, ut.capitalize,
   (match item with
    | .obj fs => (lookupField fs "display_name").getD (.str "N/A")
    | _ => .str "N/A"),
   (match pyOr (jget item "created") (.str "") with
    | .str s => .str (s.take 19)
    | v => v)⟩

/-- Spec-side mapPoints (spec.md section 4.1): «flatten every preview item
across all types/countries that carries both latitude and longitude into a
point record; items missing either coordinate are silently excluded». -/
def specMapPoints (bc : List (String × JVal)) : List MapPoint :=
  bc.flatMap (fun p =>
    (["customer", "artist", "business"]).flatMap (fun ut =>
      ((specPreviewItems p.2 ut).filter hasCoords).map (specPoint p.1 ut)))

/-- Spec-side 30-day count of one user type of a country
(`(country_info.get(ut) or {}).get('count', 0) or 0` as a number). -/
def specCount (info : JVal) (ut : String) : Int :=
  match pyOr (jget (pyOr (jget info ut) (JVal.obj [])) "count") (JVal.num 0) with
  | .num n => n
  | _ => 0

/-- Spec-side per-country breakdown row (spec.md section 4.1,
perCountryBreakdown): «per country, sum of customer+artist+business 30-day
counts». -/
def specBRow (cc : String) (info : JVal) : BRow :=
  let c := specCount info "customer"
  let a := specCount info "artist"
  let b := specCount info "business"
  ⟨cc, c, a, b, c + a + b⟩

/-- Spec-side provider label (spec.md section 4.1, topProviders): the
`service_provider_name`, «default label "Unknown" when absent». -/
def specLabel (item : JVal) : JVal :=
  pyOr (jget item "service_provider_name") (.str "Unknown")

/-- Spec-side price of one booking preview item (`total_price`, default 0). -/
def specPrice (item : JVal) : Int :=
  match pyOr (jget item "total_price") (JVal.num 0) with
  | .num n => n
  | _ => 0

/-- Spec-side revenue of a provider (spec.md section 4.1, topProviders):
«sum total_price (default 0) per service_provider_name». -/
def specProviderSum : List JVal → JVal → Int
  | [], _ => 0
  | it :: rest, p =>
      (if (specLabel it).beq p then specPrice it else 0) + specProviderSum rest p

/-- Spec-side provider list in first-seen order. -/
def specProviders (items : List JVal) : List JVal :=
  dedupFirst (items.map specLabel)

/-- Spec-side aggregated provider revenue table, keyed in first-seen order. -/
def specProviderTable (items : List JVal) : List (JVal × Int) :=
  (specProviders items).map (fun p => (p, specProviderSum items p))

/-- Pure model of the provider-revenue loop (src/app.py lines 450-454) on
well-shaped items, for relating `buildProviderRev` to the spec table. -/
def aggRev : List JVal → List (JVal × Int) → List (JVal × Int)
  | [], acc => acc
  | item :: rest, acc => aggRev rest (upsertRev acc (specLabel item) (specPrice item))

/-- Whether a Python computation succeeded (did not raise). -/
def pyOk {α : Type} : Py α → Bool
  | .ok _ => true
  | .error _ => false

/-- A concrete well-shaped payload exercising every operation: user counters,
one populated user type, one country with a geo-tagged preview item, and a
booking block with insights and one full preview item. -/
def c1Fields : List (String × JVal) := [
  ("user", JVal.obj [
    ("total_count", JVal.num 10), ("active_count", JVal.num 7),
    ("inactive_count", JVal.num 3),
    ("types", JVal.obj [
      ("customer", JVal.obj [
        ("new_24_hours", JVal.obj [("count", JVal.num 1),
          ("preview", JVal.arr [JVal.obj [("user_id", JVal.str "user123456"),
            ("created", JVal.str "2024-01-02T03:04:05Z")]])]),
        ("new_7_days", JVal.obj [("count", JVal.num 2), ("preview", JVal.arr [])]),
        ("new_30_days", JVal.obj [("count", JVal.num 3), ("preview", JVal.arr [])])])]),
    ("by_country", JVal.obj [
      ("US", JVal.obj [("total_last_30_days", JVal.num 5),
        ("customer", JVal.obj [("count", JVal.num 2),
          ("preview", JVal.arr [JVal.obj [("latitude", JVal.num 1),
            ("longitude", JVal.num 2),
            ("created", JVal.str "2024-01-02")]])])])])]),
  ("booking", JVal.obj [
    ("last_30_days", JVal.obj [
      ("insights", JVal.obj [("total_last_30d", JVal.num 4),
        ("by_status", JVal.obj [("COMPLETED", JVal.num 3), ("BOOKED", JVal.num 1)]),
        ("total_revenue_30d", JVal.num 100), ("avg_booking_value", JVal.num 25)]),
      ("preview", JVal.arr [JVal.obj [
        ("booking_id", JVal.str "bk123456789"), ("currency", JVal.str "USD"),
        ("from_time", JVal.str "2024-01-02T03:04:05Z"),
        ("to_time", JVal.str "2024-01-02T05:04:05Z"),
        ("created", JVal.str "2024-01-01T00:00:00Z"), ("total_price", JVal.num 50),
        ("service_provider_name", JVal.str "X")]])])])]

/-! Lawfulness of the structural equality, giving decidable equality. -/

mutual

theorem JVal.beq_refl : ∀ (a : JVal), JVal.beq a a = true
  | .null => rfl
  | .bool _ => by simp [JVal.beq]
  | .num _ => by simp [JVal.beq]
  | .str _ => by simp [JVal.beq]
  | .arr l => by simpa [JVal.beq] using JVal.beqList_refl l
  | .obj l => by simpa [JVal.beq] using JVal.beqFields_refl l

theorem JVal.beqList_refl : ∀ (l : List JVal), JVal.beqList l l = true
  | [] => rfl
  | x :: xs => by simp [JVal.beqList, JVal.beq_refl x, JVal.beqList_refl xs]

theorem JVal.beqFields_refl : ∀ (l : List (String × JVal)), JVal.beqFields l l = true
  | [] => rfl
  | (_, v) :: xs => by simp [JVal.beqFields, JVal.beq_refl v, JVal.beqFields_refl xs]

end

mutual

theorem JVal.eq_of_beq : ∀ {a b : JVal}, JVal.beq a b = true → a = b
  | .null, .null, _ => rfl
  | .bool x, .bool y, h => by
      have hxy : x = y := by simpa [JVal.beq] using h
      rw [hxy]
  | .num x, .num y, h => by
      have hxy : x = y := by simpa [JVal.beq] using h
      rw [hxy]
  | .str x, .str y, h => by
      have hxy : x = y := by simpa [JVal.beq] using h
      rw [hxy]
  | .arr x, .arr y, h => by
      have hxy : x = y := JVal.eqList_of_beq (by simpa [JVal.beq] using h)
      rw [hxy]
  | .obj x, .obj y, h => by
      have hxy : x = y := JVal.eqFields_of_beq (by simpa [JVal.beq] using h)
      rw [hxy]
  | .null, .bool _, h => nomatch h
  | .null, .num _, h => nomatch h
  | .null, .str _, h => nomatch h
  | .null, .arr _, h => nomatch h
  | .null, .obj _, h => nomatch h
  | .bool _, .null, h => nomatch h
  | .bool _, .num _, h => nomatch h
  | .bool _, .str _, h => nomatch h
  | .bool _, .arr _, h => nomatch h
  | .bool _, .obj _, h => nomatch h
  | .num _, .null, h => nomatch h
  | .num _, .bool _, h => nomatch h
  | .num _, .str _, h => nomatch h
  | .num _, .arr _, h => nomatch h
  | .num _, .obj _, h => nomatch h
  | .str _, .null, h => nomatch h
  | .str _, .bool _, h => nomatch h
  | .str _, .num _, h => nomatch h
  | .str _, .arr _, h => nomatch h
  | .str _, .obj _, h => nomatch h
  | .arr _, .null, h => nomatch h
  | .arr _, .bool _, h => nomatch h
  | .arr _, .num _, h => nomatch h
  | .arr _, .str _, h => nomatch h
  | .arr _, .obj _, h => nomatch h
  | .obj _, .null, h => nomatch h
  | .obj _, .bool _, h => nomatch h
  | .obj _, .num _, h => nomatch h
  | .obj _, .str _, h => nomatch h
  | .obj _, .arr _, h => nomatch h

theorem JVal.eqList_of_beq : ∀ {xs ys : List JVal}, JVal.beqList xs ys = true → xs = ys
  | [], [], _ => rfl
  | x :: xs, y :: ys, h => by
      have h1 : JVal.beq x y = true ∧ JVal.beqList xs ys = true := by
        simpa [JVal.beqList, Bool.and_eq_true] using h
      rw [JVal.eq_of_beq h1.1, JVal.eqList_of_beq h1.2]
  | [], _ :: _, h => nomatch h
  | _ :: _, [], h => nomatch h

theorem JVal.eqFields_of_beq :
    ∀ {xs ys : List (String × JVal)}, JVal.beqFields xs ys = true → xs = ys
  | [], [], _ => rfl
  | (k₁, v₁) :: xs, (k₂, v₂) :: ys, h => by
      have h1 : (k₁ == k₂) = true ∧ JVal.beq v₁ v₂ = true ∧ JVal.beqFields xs ys = true := by
        simpa [JVal.beqFields, Bool.and_eq_true, and_assoc] using h
      have hk : k₁ = k₂ := by simpa using h1.1
      rw [hk, JVal.eq_of_beq h1.2.1, JVal.eqFields_of_beq h1.2.2]
  | [], _ :: _, h => nomatch h
  | _ :: _, [], h => nomatch h

end

instance : LawfulBEq JVal where
  eq_of_beq := JVal.eq_of_beq
  rfl := JVal.beq_refl _

instance : DecidableEq JVal := fun a b =>
  decidable_of_iff (JVal.beq a b = true) ⟨JVal.eq_of_beq, fun h => h ▸ JVal.beq_refl a⟩

@[simp] theorem py_bind_ok {α β : Type} (a : α) (f : α → Py β) :
    (Except.ok a >>= f : Py β) = f a := rfl

@[simp] theorem py_bind_err {α β : Type} (e : String) (f : α → Py β) :
    (Except.error e >>= f : Py β) = Except.error e := rfl

@[simp] theorem py_pure {α : Type} (a : α) : (pure a : Py α) = Except.ok a := rfl

/-- Projecting `user.total_count` etc. when `user` is present as a dict. -/
theorem overview_user_obj (fs ufs : List (String × JVal))
    (h : lookupField fs "user" = some (JVal.obj ufs)) :
    display_overview_metrics (JVal.obj fs) = Except.ok
      ⟨(lookupField ufs "total_count").getD (JVal.num 0),
       (lookupField ufs "active_count").getD (JVal.num 0),
       (lookupField ufs "inactive_count").getD (JVal.num 0)⟩ := by
  simp [display_overview_metrics, pyDictGet, h]

/-- C9: `display_overview_metrics` returns `user.total_count`,
`user.active_count` and `user.inactive_count`, each defaulting to 0 when
absent, with no error case among these shapes; a missing `user` key — in
particular the empty payload — yields all zeros. -/
theorem C9_overview_defaults :
    (∀ fs ufs, lookupField fs "user" = some (JVal.obj ufs) →
      display_overview_metrics (JVal.obj fs) = Except.ok
        ⟨(lookupField ufs "total_count").getD (JVal.num 0),
         (lookupField ufs "active_count").getD (JVal.num 0),
         (lookupField ufs "inactive_count").getD (JVal.num 0)⟩)
  ∧ (∀ fs, lookupField fs "user" = none →
      display_overview_metrics (JVal.obj fs) = Except.ok ⟨JVal.num 0, JVal.num 0, JVal.num 0⟩)
  ∧ display_overview_metrics (JVal.obj []) = Except.ok ⟨JVal.num 0, JVal.num 0, JVal.num 0⟩ := by
  refine ⟨overview_user_obj, ?_, rfl⟩
  intro fs h
  simp [display_overview_metrics, pyDictGet, h, lookupField]

/-- Witness for C9 at a concrete payload with one counter absent. -/
theorem C9_overview_defaults_witness :
    display_overview_metrics
      (JVal.obj [("user", JVal.obj [("total_count", JVal.num 12), ("active_count", JVal.num 7)])])
      = Except.ok ⟨JVal.num 12, JVal.num 7, JVal.num 0⟩ := by
  have h := C9_overview_defaults.1
    [("user", JVal.obj [("total_count", JVal.num 12), ("active_count", JVal.num 7)])]
    [("total_count", JVal.num 12), ("active_count", JVal.num 7)] rfl
  exact h

/-- A present numeric `total_last_30d` is returned as the total. -/
theorem bookingTotal_num (ifs : List (String × JVal)) (ps : List JVal) (n : Int)
    (h : lookupField ifs "total_last_30d" = some (JVal.num n)) :
    bookingTotal (JVal.obj ifs) (JVal.arr ps) = Except.ok (JVal.num n) := by
  by_cases hn : n = 0
  · subst hn
    simp [bookingTotal, pyDictGet, h, pyOr, truthy]
  · simp [bookingTotal, pyDictGet, h, pyOr, truthy, hn]

/-- An absent `total_last_30d` falls back to the preview list's length. -/
theorem bookingTotal_absent (ifs : List (String × JVal)) (ps : List JVal)
    (h : lookupField ifs "total_last_30d" = none) :
    bookingTotal (JVal.obj ifs) (JVal.arr ps) = Except.ok (JVal.num ps.length) := by
  by_cases hn : ps.length = 0
  · simp [bookingTotal, pyDictGet, h, pyOr, truthy, hn]
  · simp [bookingTotal, pyDictGet, h, pyOr, truthy, hn]

/-- C5: the booking `total` equals `insights.total_last_30d` whenever that
field is present (with a numeric value — a present null value is the
subject of the separate falsy-value claim), and otherwise equals the length
of the preview list; in particular `insights = {}` with a 4-element preview
gives 4. -/
theorem C5_booking_total_fallback :
    (∀ ifs ps n, lookupField ifs "total_last_30d" = some (JVal.num n) →
      bookingTotal (JVal.obj ifs) (JVal.arr ps) = Except.ok (JVal.num n))
  ∧ (∀ ifs ps, lookupField ifs "total_last_30d" = none →
      bookingTotal (JVal.obj ifs) (JVal.arr ps) = Except.ok (JVal.num ps.length))
  ∧ bookingTotal (JVal.obj [])
      (JVal.arr [JVal.obj [], JVal.obj [], JVal.obj [], JVal.obj []]) = Except.ok (JVal.num 4) :=
  ⟨bookingTotal_num, bookingTotal_absent, rfl⟩

/-- Witness for C5: present field 7 is returned; absent field falls back. -/
theorem C5_booking_total_fallback_witness :
    bookingTotal (JVal.obj [("total_last_30d", JVal.num 7)]) (JVal.arr [JVal.obj []])
      = Except.ok (JVal.num 7) :=
  C5_booking_total_fallback.1 [("total_last_30d", JVal.num 7)] [JVal.obj []] 7 rfl

/-- A present falsy `total_last_30d` is normalised to 0 by the `or 0`. -/
theorem bookingTotal_falsy (ifs : List (String × JVal)) (ps : List JVal) (v : JVal)
    (h : lookupField ifs "total_last_30d" = some v) (hv : truthy v = false) :
    bookingTotal (JVal.obj ifs) (JVal.arr ps) = Except.ok (JVal.num 0) := by
  simp [bookingTotal, pyDictGet, h, pyOr, hv]

/-- C10: when `insights.total_last_30d` is present but null (or otherwise
falsy) the booking total is 0 — the preview-length fallback applies only to
an absent key, not to a present null: with a 3-element preview the total is
0, not 3. -/
theorem C10_booking_total_null :
    (∀ ifs ps v, lookupField ifs "total_last_30d" = some v → truthy v = false →
      bookingTotal (JVal.obj ifs) (JVal.arr ps) = Except.ok (JVal.num 0))
  ∧ bookingTotal (JVal.obj [("total_last_30d", JVal.null)])
      (JVal.arr [JVal.obj [], JVal.obj [], JVal.obj []]) = Except.ok (JVal.num 0)
  ∧ bookingTotal (JVal.obj [("total_last_30d", JVal.null)])
      (JVal.arr [JVal.obj [], JVal.obj [], JVal.obj []]) ≠ Except.ok (JVal.num 3) := by
  refine ⟨bookingTotal_falsy, rfl, ?_⟩
  intro h
  have h0 : bookingTotal (JVal.obj [("total_last_30d", JVal.null)])
      (JVal.arr [JVal.obj [], JVal.obj [], JVal.obj []]) = Except.ok (JVal.num 0) := rfl
  rw [h0] at h
  injection h with h1
  injection h1 with h2
  exact absurd h2 (by decide)

/-- Witness for C10 at a present-null field. -/
theorem C10_booking_total_null_witness :
    bookingTotal (JVal.obj [("total_last_30d", JVal.null)])
      (JVal.arr [JVal.obj [], JVal.obj []]) = Except.ok (JVal.num 0) :=
  C10_booking_total_null.1 [("total_last_30d", JVal.null)] [JVal.obj [], JVal.obj []]
    JVal.null rfl rfl

/-- A string `user_id` of length at most 8 is kept unchanged. -/
theorem rowUserId_short (fs : List (String × JVal)) (s : String)
    (h : lookupField fs "user_id" = some (JVal.str s)) (hs : s.length ≤ 8) :
    rowUserId (JVal.obj fs) = Except.ok (JVal.str s) := by
  unfold rowUserId
  rw [pyDictGet, h]
  simp only [Option.getD_some, py_bind_ok, pyLen]
  rw [if_neg (by omega)]
  rw [pyDictGet, h]
  rfl

/-- A string `user_id` longer than 8 is cut to 8 plus an ellipsis. -/
theorem rowUserId_long (fs : List (String × JVal)) (s : String)
    (h : lookupField fs "user_id" = some (JVal.str s)) (hs : 8 < s.length) :
    rowUserId (JVal.obj fs) = Except.ok (JVal.str (s.take 8 ++ "...")) := by
  unfold rowUserId
  rw [pyDictGet, h]
  simp only [Option.getD_some, py_bind_ok, pyLen]
  rw [if_pos hs]
  rw [pyDictGet, h]
  simp only [Option.getD_some, py_bind_ok, pySlice, pyAdd]

/-- C8: in the typeMetrics preview rows, a `user_id` of length at most 8 is
projected unchanged — no ellipsis, no padding, no exception — and a longer
one is cut to its first 8 characters plus an ellipsis; in particular "abc"
stays "abc". -/
theorem C8_user_id_truncation :
    (∀ fs s, lookupField fs "user_id" = some (JVal.str s) → s.length ≤ 8 →
      rowUserId (JVal.obj fs) = Except.ok (JVal.str s))
  ∧ (∀ fs s, lookupField fs "user_id" = some (JVal.str s) → 8 < s.length →
      rowUserId (JVal.obj fs) = Except.ok (JVal.str (s.take 8 ++ "..."))) :=
  ⟨rowUserId_short, rowUserId_long⟩

/-- Witness for C8: `user_id = "abc"` is kept unchanged. -/
theorem C8_user_id_truncation_witness :
    rowUserId (JVal.obj [("user_id", JVal.str "abc")]) = Except.ok (JVal.str "abc") :=
  C8_user_id_truncation.1 [("user_id", JVal.str "abc")] "abc" rfl (by decide)

/-- Case split on an `fieldIs` hypothesis. -/
theorem fieldIs_cases {fs : List (String × JVal)} {k : String} {p : JVal → Bool}
    (h : fieldIs fs k p = true) :
    lookupField fs k = none ∨ ∃ v, lookupField fs k = some v ∧ p v = true := by
  unfold fieldIs at h
  cases hl : lookupField fs k with
  | none => exact .inl rfl
  | some v =>
      right
      refine ⟨v, rfl, ?_⟩
      rwa [hl] at h

/-- A `strOrFalsy` value is falsy or a string. -/
theorem strOrFalsy_cases : ∀ {v : JVal}, strOrFalsy v = true →
    truthy v = false ∨ ∃ s, v = JVal.str s
  | .null, _ => .inl rfl
  | .bool _, h => .inl (by simpa [strOrFalsy, truthy, isStr] using h)
  | .num _, h => .inl (by simpa [strOrFalsy, truthy, isStr] using h)
  | .str s, _ => .inr ⟨s, rfl⟩
  | .arr _, h => .inl (by simpa [strOrFalsy, truthy, isStr] using h)
  | .obj _, h => .inl (by simpa [strOrFalsy, truthy, isStr] using h)

/-- A `numOrFalsy` value is falsy or a number. -/
theorem numOrFalsy_cases : ∀ {v : JVal}, numOrFalsy v = true →
    truthy v = false ∨ ∃ n, v = JVal.num n
  | .null, _ => .inl rfl
  | .bool _, h => .inl (by simpa [numOrFalsy, truthy, isNum] using h)
  | .num n, _ => .inr ⟨n, rfl⟩
  | .str _, h => .inl (by simpa [numOrFalsy, truthy, isNum] using h)
  | .arr _, h => .inl (by simpa [numOrFalsy, truthy, isNum] using h)
  | .obj _, h => .inl (by simpa [numOrFalsy, truthy, isNum] using h)

/-- Slicing `v or ''` of a falsy-or-string value always yields a string. -/
theorem slice_or_ok (v : JVal) (hv : strOrFalsy v = true) (n : Nat) :
    ∃ s, pySlice (pyOr v (.str "")) n = Except.ok (JVal.str s) := by
  rcases strOrFalsy_cases hv with h | ⟨s, rfl⟩
  · exact ⟨"".take n, by simp [pyOr, h, pySlice]⟩
  · unfold pyOr
    by_cases hs : truthy (JVal.str s)
    · exact ⟨s.take n, by rw [if_pos hs]; rfl⟩
    · exact ⟨"".take n, by rw [if_neg hs]; rfl⟩

/-- The cells after 'Booking ID' always succeed on a well-shaped item and
leave the given 'Booking ID' value unchanged. -/
theorem bookingRowRest_ok (fs : List (String × JVal)) (bid : JVal)
    (hft : fieldIs fs "from_time" strOrFalsy = true)
    (htt : fieldIs fs "to_time" strOrFalsy = true) :
    ∃ r, bookingRowRest (JVal.obj fs) bid = Except.ok r ∧ r.bookingId = bid := by
  have hf : strOrFalsy ((lookupField fs "from_time").getD JVal.null) = true := by
    rcases fieldIs_cases hft with h | ⟨v, h, hv⟩
    · simp [h, strOrFalsy, truthy]
    · simpa [h] using hv
  have ht : strOrFalsy ((lookupField fs "to_time").getD JVal.null) = true := by
    rcases fieldIs_cases htt with h | ⟨v, h, hv⟩
    · simp [h, strOrFalsy, truthy]
    · simpa [h] using hv
  obtain ⟨sf, hsf⟩ := slice_or_ok _ hf 19
  obtain ⟨st, hst⟩ := slice_or_ok _ ht 19
  refine ⟨⟨bid, (lookupField fs "status").getD (.str "N/A"),
      (lookupField fs "type").getD (.str "N/A"),
      (lookupField fs "total_price").getD (.num 0),
      (lookupField fs "currency").getD (.str ""),
      .str sf, .str st,
      (lookupField fs "customer_name").getD (.str "N/A"),
      (lookupField fs "service_provider_name").getD (.str "N/A")⟩, ?_, rfl⟩
  unfold bookingRowRest
  simp only [pyDictGet, py_bind_ok, hsf, hst, py_pure]

/-- C2 counterexample: a booking_id of length 3 ("abc", at most 8
characters) is projected as "abc..." with an appended ellipsis — not kept
unchanged as the claim states. -/
theorem C2_short_booking_id_cex :
    (bookingRow (JVal.obj [("booking_id", JVal.str "abc")])).map BookingRow.bookingId
      = Except.ok (JVal.str "abc...")
  ∧ (bookingRow (JVal.obj [("booking_id", JVal.str "abc")])).map BookingRow.bookingId
      ≠ Except.ok (JVal.str "abc") := by
  constructor
  · rfl
  · intro h
    rw [show (bookingRow (JVal.obj [("booking_id", JVal.str "abc")])).map BookingRow.bookingId
        = Except.ok (JVal.str "abc...") from rfl] at h
    injection h with h1
    injection h1 with h2
    exact absurd h2 (by decide)

/-- C2 amended: in `previewRows`, a truthy string `booking_id` is always
projected as its first 8 characters followed by an ellipsis — also when it
is 8 characters or shorter — while an absent or falsy `booking_id` is
projected as 'N/A'; no null dereference occurs in either case. -/
theorem C2_booking_id_amended :
    (∀ fs s, wsBookingItem (JVal.obj fs) = true →
      lookupField fs "booking_id" = some (JVal.str s) → s ≠ "" →
      (bookingRow (JVal.obj fs)).map BookingRow.bookingId
        = Except.ok (JVal.str (s.take 8 ++ "...")))
  ∧ (∀ fs, wsBookingItem (JVal.obj fs) = true → lookupField fs "booking_id" = none →
      (bookingRow (JVal.obj fs)).map BookingRow.bookingId = Except.ok (JVal.str "N/A"))
  ∧ (∀ fs v, wsBookingItem (JVal.obj fs) = true → lookupField fs "booking_id" = some v →
      truthy v = false →
      (bookingRow (JVal.obj fs)).map BookingRow.bookingId = Except.ok (JVal.str "N/A")) := by
  have extract : ∀ fs, wsBookingItem (JVal.obj fs) = true →
      fieldIs fs "from_time" strOrFalsy = true ∧ fieldIs fs "to_time" strOrFalsy = true := by
    intro fs hws
    simp only [wsBookingItem, Bool.and_eq_true] at hws
    exact ⟨hws.1.1.1.1.1.2, hws.1.1.1.1.2⟩
  refine ⟨?_, ?_, ?_⟩
  · intro fs s hws h hs
    obtain ⟨hft, htt⟩ := extract fs hws
    obtain ⟨r, hr, hid⟩ := bookingRowRest_ok fs (JVal.str (s.take 8 ++ "...")) hft htt
    have htr : truthy (JVal.str s) = true := by simp [truthy, hs]
    unfold bookingRow
    rw [pyDictGet, h]
    simp only [Option.getD_some, py_bind_ok, htr, if_true, pyOr, pySlice, pyAdd, py_pure]
    rw [hr]
    simp [Except.map, hid]
  · intro fs hws h
    obtain ⟨hft, htt⟩ := extract fs hws
    obtain ⟨r, hr, hid⟩ := bookingRowRest_ok fs (JVal.str "N/A") hft htt
    unfold bookingRow
    rw [pyDictGet, h]
    simp only [Option.getD_none, py_bind_ok, truthy, Bool.false_eq_true, if_false, py_pure]
    rw [hr]
    simp [Except.map, hid]
  · intro fs v hws h hv
    obtain ⟨hft, htt⟩ := extract fs hws
    obtain ⟨r, hr, hid⟩ := bookingRowRest_ok fs (JVal.str "N/A") hft htt
    unfold bookingRow
    rw [pyDictGet, h]
    simp only [Option.getD_some, py_bind_ok, hv, Bool.false_eq_true, if_false, py_pure]
    rw [hr]
    simp [Except.map, hid]

/-- Witness for the amended C2 at `booking_id = "abc"`. -/
theorem C2_booking_id_amended_witness :
    (bookingRow (JVal.obj [("booking_id", JVal.str "abc")])).map BookingRow.bookingId
      = Except.ok (JVal.str "abc...") := by
  have h := C2_booking_id_amended.1 [("booking_id", JVal.str "abc")] "abc" (by decide) rfl
    (by decide)
  exact h.trans (by rw [show "abc".take 8 ++ "..." = "abc..." from by decide])

@[simp] theorem jval_beq_eq (a b : JVal) : JVal.beq a b = (a == b) := rfl

/-- Deduplication of a non-empty constant list is that one element. -/
theorem dedupFirst_all_eq (c : JVal) : ∀ {cs : List JVal}, cs ≠ [] →
    (∀ x ∈ cs, x = c) → dedupFirst cs = [c]
  | [], h, _ => absurd rfl h
  | x :: rest, _, hall => by
      have hx : x = c := hall x (List.mem_cons_self x rest)
      unfold dedupFirst
      rw [hx]
      by_cases hr : rest = []
      · subst hr
        rfl
      · have hrec := dedupFirst_all_eq c hr (fun y hy => hall y (List.mem_cons_of_mem _ hy))
        rw [hrec]
        simp [List.filter_cons, JVal.beq_refl]

/-- Deduplication preserves membership. -/
theorem mem_dedupFirst : ∀ {cs : List JVal} {x : JVal}, x ∈ cs → x ∈ dedupFirst cs
  | c :: rest, x, hx => by
      unfold dedupFirst
      by_cases hxc : x = c
      · subst hxc
        exact List.mem_cons_self _ _
      · rcases List.mem_cons.mp hx with h | hr
        · exact absurd h hxc
        · refine List.mem_cons_of_mem _ ?_
          rw [List.mem_filter]
          refine ⟨mem_dedupFirst hr, ?_⟩
          simp only [jval_beq_eq, Bool.not_eq_eq_eq_not, Bool.not_true, beq_eq_false_iff_ne]
          exact hxc

/-- Deduplication yields a sublist of the members. -/
theorem dedupFirst_subset : ∀ {cs : List JVal} {x : JVal}, x ∈ dedupFirst cs → x ∈ cs
  | [], x, hx => by simp [dedupFirst] at hx
  | c :: rest, x, hx => by
      unfold dedupFirst at hx
      rcases List.mem_cons.mp hx with h | hr
      · exact h ▸ List.mem_cons_self _ _
      · exact List.mem_cons_of_mem _ (dedupFirst_subset (List.mem_filter.mp hr).1)

theorem length_insertStrAsc (x : String) : ∀ l : List String,
    (insertStrAsc x l).length = l.length + 1
  | [] => rfl
  | y :: ys => by
      unfold insertStrAsc
      by_cases h : y < x
      · simp [h, length_insertStrAsc x ys]
      · simp [h]

theorem length_isortStrAsc : ∀ l : List String, (isortStrAsc l).length = l.length
  | [] => rfl
  | x :: xs => by
      unfold isortStrAsc
      rw [length_insertStrAsc, length_isortStrAsc xs]
      rfl

theorem length_filterMap_strOf {ds : List JVal} (h : ∀ x ∈ ds, isStr x = true) :
    (ds.filterMap strOf).length = ds.length := by
  induction ds with
  | nil => rfl
  | cons x rest ih =>
      have hx := h x (List.mem_cons_self _ _)
      cases x <;> simp [isStr] at hx
      simp only [List.filterMap_cons, strOf, List.length_cons]
      rw [ih (fun y hy => h y (List.mem_cons_of_mem _ hy))]

/-- `sorted` of a set whose deduplication is a singleton. -/
theorem pySortedOfSet_singleton {cs : List JVal} {c : JVal} (h : dedupFirst cs = [c]) :
    pySortedOfSet cs = Except.ok [c] := by
  unfold pySortedOfSet
  rw [h]
  rfl

/-- `sorted` of an all-string set succeeds and keeps the member count. -/
theorem pySortedOfSet_allStr {cs : List JVal} (h : ∀ x ∈ cs, ∃ s, x = JVal.str s) :
    ∃ l, pySortedOfSet cs = Except.ok l ∧ l.length = (dedupFirst cs).length := by
  have hall : ∀ x ∈ dedupFirst cs, isStr x = true := by
    intro x hx
    obtain ⟨s, rfl⟩ := h x (dedupFirst_subset hx)
    rfl
  have hstr : (dedupFirst cs).all isStr = true := by
    rw [List.all_eq_true]
    exact hall
  unfold pySortedOfSet
  by_cases hlen : (dedupFirst cs).length ≤ 1
  · rw [if_pos hlen]
    exact ⟨dedupFirst cs, rfl, rfl⟩
  · rw [if_neg hlen, if_pos hstr]
    refine ⟨_, rfl, ?_⟩
    rw [List.length_map, length_isortStrAsc, length_filterMap_strOf hall]

/-- Two distinct members force length at least 2. -/
theorem two_le_length_of_mem {α : Type} {a b : α} (hab : a ≠ b) :
    ∀ {l : List α}, a ∈ l → b ∈ l → 2 ≤ l.length
  | [], ha, _ => absurd ha (List.not_mem_nil a)
  | [x], ha, hb => by
      have ha' : a = x := by simpa using ha
      have hb' : b = x := by simpa using hb
      exact absurd (ha'.trans hb'.symm) hab
  | _ :: _ :: _, _, _ => by
      simp only [List.length_cons]
      omega

/-- C6: the booking `currency_label` is the unique currency value when every
preview item that specifies a (truthy) currency specifies the same one, and
is null (None, rendered as no prefix) when no item specifies a currency or
when at least two distinct currencies appear. -/
theorem C6_currency_label_unique :
    (∀ items cs c₀, collectCurrencies items = Except.ok cs → cs ≠ [] →
      (∀ x ∈ cs, x = JVal.str c₀) →
      currency_label (JVal.arr items) = Except.ok (JVal.str c₀))
  ∧ (∀ items, collectCurrencies items = Except.ok [] →
      currency_label (JVal.arr items) = Except.ok JVal.null)
  ∧ (∀ items cs c₁ c₂, collectCurrencies items = Except.ok cs →
      (∀ x ∈ cs, ∃ s, x = JVal.str s) →
      JVal.str c₁ ∈ cs → JVal.str c₂ ∈ cs → c₁ ≠ c₂ →
      currency_label (JVal.arr items) = Except.ok JVal.null) := by
  refine ⟨?_, ?_, ?_⟩
  · intro items cs c₀ hcs hne hall
    unfold currency_label
    simp only [pyIter, py_bind_ok]
    rw [hcs]
    simp only [py_bind_ok]
    rw [pySortedOfSet_singleton (dedupFirst_all_eq _ hne hall)]
    rfl
  · intro items hcs
    unfold currency_label
    simp only [pyIter, py_bind_ok]
    rw [hcs]
    rfl
  · intro items cs c₁ c₂ hcs hstr h1 h2 hcc
    obtain ⟨l, hl, hlen⟩ := pySortedOfSet_allStr hstr
    have hd2 : 2 ≤ (dedupFirst cs).length := by
      have hne : (JVal.str c₁) ≠ (JVal.str c₂) := by
        simp only [ne_eq, JVal.str.injEq]
        exact hcc
      exact two_le_length_of_mem hne (mem_dedupFirst h1) (mem_dedupFirst h2)
    have hne1 : (l.length == 1) = false := by
      rw [beq_eq_false_iff_ne]
      omega
    unfold currency_label
    simp only [pyIter, py_bind_ok]
    rw [hcs]
    simp only [py_bind_ok]
    rw [hl]
    simp only [py_bind_ok, hne1, Bool.false_eq_true, if_false, py_pure]

/-- Witness for C6: all-USD preview yields the label "USD". -/
theorem C6_currency_label_unique_witness :
    currency_label (JVal.arr [JVal.obj [("currency", JVal.str "USD")],
      JVal.obj [("currency", JVal.str "USD")]]) = Except.ok (JVal.str "USD") := by
  refine C6_currency_label_unique.1
    [JVal.obj [("currency", JVal.str "USD")], JVal.obj [("currency", JVal.str "USD")]]
    [JVal.str "USD", JVal.str "USD"] "USD" rfl (by decide) ?_
  intro x hx
  rcases List.mem_cons.mp hx with h | h
  · exact h
  · simpa using h

/-! Properties of the stable sorts: permutation, sortedness, and
stability expressed through filters (for every key value, the tied
elements appear in their input order). -/

theorem insertAscBy_perm {α : Type} (key : α → Int) (x : α) :
    ∀ l : List α, (insertAscBy key x l).Perm (x :: l)
  | [] => List.Perm.refl _
  | y :: ys => by
      unfold insertAscBy
      by_cases h : key y < key x
      · rw [if_pos h]
        exact ((insertAscBy_perm key x ys).cons y).trans (List.Perm.swap x y ys)
      · rw [if_neg h]

theorem sorted_insertAscBy {α : Type} (key : α → Int) (x : α) :
    ∀ {l : List α}, List.Sorted (fun a b => key a ≤ key b) l →
      List.Sorted (fun a b => key a ≤ key b) (insertAscBy key x l)
  | [], _ => by simp [insertAscBy]
  | y :: ys, hs => by
      rw [List.sorted_cons] at hs
      unfold insertAscBy
      by_cases h : key y < key x
      · rw [if_pos h, List.sorted_cons]
        constructor
        · intro b hb
          rcases List.mem_cons.mp ((insertAscBy_perm key x ys).mem_iff.mp hb) with rfl | hbys
          · exact le_of_lt h
          · exact hs.1 b hbys
        · exact sorted_insertAscBy key x hs.2
      · rw [if_neg h, List.sorted_cons]
        refine ⟨?_, List.sorted_cons.mpr hs⟩
        intro b hb
        rcases List.mem_cons.mp hb with rfl | hbys
        · omega
        · have hyb := hs.1 b hbys
          omega

theorem sorted_isortAscBy {α : Type} (key : α → Int) :
    ∀ l : List α, List.Sorted (fun a b => key a ≤ key b) (isortAscBy key l)
  | [] => List.sorted_nil
  | x :: xs => sorted_insertAscBy key x (sorted_isortAscBy key xs)

theorem isortAscBy_perm {α : Type} (key : α → Int) :
    ∀ l : List α, (isortAscBy key l).Perm l
  | [] => List.Perm.refl _
  | x :: xs => (insertAscBy_perm key x _).trans ((isortAscBy_perm key xs).cons x)

theorem filter_insertAscBy_eq {α : Type} (key : α → Int) (x : α) :
    ∀ l : List α, (insertAscBy key x l).filter (fun a => key a == key x)
      = x :: l.filter (fun a => key a == key x)
  | [] => by simp [insertAscBy, List.filter_cons]
  | y :: ys => by
      unfold insertAscBy
      by_cases h : key y < key x
      · rw [if_pos h]
        have hy : (key y == key x) = false := by
          rw [beq_eq_false_iff_ne]
          omega
        simp only [List.filter_cons, hy, Bool.false_eq_true, if_false]
        rw [filter_insertAscBy_eq key x ys]
      · rw [if_neg h]
        simp [List.filter_cons]

theorem filter_insertAscBy_ne {α : Type} (key : α → Int) (x : α) (v : Int)
    (hx : (key x == v) = false) :
    ∀ l : List α, (insertAscBy key x l).filter (fun a => key a == v)
      = l.filter (fun a => key a == v)
  | [] => by simp [insertAscBy, List.filter_cons, hx]
  | y :: ys => by
      unfold insertAscBy
      by_cases h : key y < key x
      · rw [if_pos h]
        simp only [List.filter_cons]
        rw [filter_insertAscBy_ne key x v hx ys]
      · rw [if_neg h]
        simp only [List.filter_cons, hx, Bool.false_eq_true, if_false]

theorem filter_isortAscBy {α : Type} (key : α → Int) (v : Int) :
    ∀ l : List α, (isortAscBy key l).filter (fun a => key a == v)
      = l.filter (fun a => key a == v)
  | [] => rfl
  | x :: xs => by
      unfold isortAscBy
      by_cases h : (key x == v) = true
      · have hv : key x = v := beq_iff_eq.mp h
        subst hv
        rw [filter_insertAscBy_eq key x _, filter_isortAscBy key (key x) xs]
        simp [List.filter_cons]
      · have hx : (key x == v) = false := by
          exact Bool.not_eq_true _ ▸ Bool.eq_false_iff.mpr h
        rw [filter_insertAscBy_ne key x v hx _, filter_isortAscBy key v xs]
        simp only [List.filter_cons, hx, Bool.false_eq_true, if_false]

theorem stableSortDescBy_perm {α : Type} (key : α → Int) (l : List α) :
    (stableSortDescBy key l).Perm l := by
  unfold stableSortDescBy
  exact (List.reverse_perm _).trans ((isortAscBy_perm key _).trans (List.reverse_perm l))

theorem stableSortDescBy_sorted {α : Type} (key : α → Int) (l : List α) :
    List.Sorted (fun a b => key b ≤ key a) (stableSortDescBy key l) := by
  unfold stableSortDescBy
  exact List.pairwise_reverse.mpr (sorted_isortAscBy key l.reverse)

theorem stableSortDescBy_filter {α : Type} (key : α → Int) (v : Int) (l : List α) :
    (stableSortDescBy key l).filter (fun a => key a == v)
      = l.filter (fun a => key a == v) := by
  unfold stableSortDescBy
  rw [List.filter_reverse, filter_isortAscBy, List.filter_reverse, List.reverse_reverse]

@[simp] theorem jget_obj (fs : List (String × JVal)) (k : String) :
    jget (JVal.obj fs) k = (lookupField fs k).getD JVal.null := rfl

/-- Evaluating `x or 0` as a number when `x` is falsy or numeric. -/
theorem asNum_or_zero {v : JVal} (h : numOrFalsy v = true) :
    asNum (pyOr v (JVal.num 0)) = Except.ok (match pyOr v (JVal.num 0) with
      | JVal.num n => n
      | _ => 0) := by
  rcases numOrFalsy_cases h with hf | ⟨n, rfl⟩
  · rw [pyOr, hf]
    rfl
  · unfold pyOr
    by_cases hn : truthy (JVal.num n)
    · rw [if_pos hn]
      rfl
    · rw [if_neg hn]
      rfl

/-- Case split on a well-shaped per-type country block. -/
theorem wsCountryTypeBlock_cases {v : JVal} (h : wsCountryTypeBlock v = true) :
    truthy v = false ∨ ∃ tfs, v = JVal.obj tfs ∧ truthy v = true ∧
      fieldIs tfs "count" numOrFalsy = true ∧
      fieldIs tfs "preview" (wsPreviewWith wsItemGeo) = true := by
  unfold wsCountryTypeBlock at h
  by_cases ht : truthy v = true
  · right
    rw [ht] at h
    simp only [Bool.not_true, Bool.false_or] at h
    cases v with
    | obj tfs =>
        simp only [Bool.and_eq_true] at h
        exact ⟨tfs, rfl, ht, h.1, h.2⟩
    | null => simp at h
    | bool b => simp at h
    | num n => simp at h
    | str s => simp at h
    | arr l => simp at h
  · exact .inl (by simpa using ht)

/-- The per-type 30-day count extraction agrees with the spec-side count on
a well-shaped country record. -/
theorem typeCount30_char (ifs : List (String × JVal)) (ut : String)
    (h : fieldIs ifs ut wsCountryTypeBlock = true) :
    typeCount30 (JVal.obj ifs) ut = Except.ok (specCount (JVal.obj ifs) ut) := by
  unfold typeCount30 specCount
  rw [pyDictGet, jget_obj]
  rcases fieldIs_cases h with h0 | ⟨v, h0, hv⟩
  · rw [h0]
    rfl
  · rw [h0]
    simp only [Option.getD_some, py_bind_ok]
    rcases wsCountryTypeBlock_cases hv with hf | ⟨tfs, rfl, htv, hc, _⟩
    · have hpor : pyOr v (JVal.obj []) = JVal.obj [] := by
        rw [pyOr, hf]
        rfl
      rw [hpor]
      rfl
    · have hpor : pyOr (JVal.obj tfs) (JVal.obj []) = JVal.obj tfs := by
        rw [pyOr, htv]
        rfl
      rw [hpor, pyDictGet, jget_obj]
      rcases fieldIs_cases hc with hcn | ⟨cv, hcn, hcv⟩
      · rw [hcn]
        rfl
      · rw [hcn]
        simp only [Option.getD_some, py_bind_ok]
        rw [asNum_or_zero hcv]

/-- One breakdown row agrees with its spec-side row. -/
theorem breakdownRow_char (cc : String) (ifs : List (String × JVal))
    (h : wsCountryInfo (JVal.obj ifs) = true) :
    breakdownRow cc (JVal.obj ifs) = Except.ok (specBRow cc (JVal.obj ifs)) := by
  simp only [wsCountryInfo, Bool.and_eq_true] at h
  unfold breakdownRow
  rw [typeCount30_char ifs "customer" h.1.1.2, typeCount30_char ifs "artist" h.1.2,
    typeCount30_char ifs "business" h.2]
  rfl

/-- The unsorted breakdown rows are the spec-side rows in input order. -/
theorem breakdownRowsUnsorted_char : ∀ (bc : List (String × JVal)),
    (∀ kv ∈ bc, wsCountryInfo kv.2 = true) →
    breakdownRowsUnsorted bc = Except.ok (bc.map (fun p => specBRow p.1 p.2))
  | [], _ => rfl
  | (cc, info) :: rest, h => by
      have hinfo := h (cc, info) (List.mem_cons_self _ _)
      obtain ⟨ifs, rfl⟩ : ∃ ifs, info = JVal.obj ifs := by
        cases info
        case obj ifs => exact ⟨ifs, rfl⟩
        all_goals simp [wsCountryInfo] at hinfo
      unfold breakdownRowsUnsorted
      rw [breakdownRow_char cc ifs hinfo]
      simp only [py_bind_ok]
      rw [breakdownRowsUnsorted_char rest (fun kv hkv => h kv (List.mem_cons_of_mem _ hkv))]
      rfl

/-- The breakdown table is the stable descending sort of the spec rows. -/
theorem breakdownTable_char (bc : List (String × JVal))
    (h : ∀ kv ∈ bc, wsCountryInfo kv.2 = true) :
    breakdownTable bc
      = Except.ok (stableSortDescBy BRow.total (bc.map (fun p => specBRow p.1 p.2))) := by
  unfold breakdownTable
  rw [breakdownRowsUnsorted_char bc h]
  rfl

/-- On a well-shaped `by_country` of at most 16 countries — the range in
which numpy's `kind='quicksort'` argsort is a plain insertion sort, so that
`sort_values(ascending=False)` is exactly the stable descending sort of
this embedding — the per-country breakdown holds one row per country (the
sum of its customer, artist and business 30-day counts), sorted descending
by that total with ties in first-seen country order; in particular A:5,
B:5, C:10 given in that order comes out [C, A, B].  Above 16 rows the
library's introsort (or, on AVX-512 builds, its vectorized sort) fixes the
tie order instead, and no tie-order statement is made. -/
theorem breakdownTable_sorted_stable_small :
    (∀ bc : List (String × JVal), bc.length ≤ 16 →
      (∀ kv ∈ bc, wsCountryInfo kv.2 = true) →
      ∃ rows, breakdownTable bc = Except.ok rows ∧
        rows.Perm (bc.map (fun p => specBRow p.1 p.2)) ∧
        List.Sorted (fun x y => BRow.total y ≤ BRow.total x) rows ∧
        (∀ v : Int, rows.filter (fun r => BRow.total r == v)
          = (bc.map (fun p => specBRow p.1 p.2)).filter (fun r => BRow.total r == v)))
  ∧ breakdownTable [("A", JVal.obj [("customer", JVal.obj [("count", JVal.num 5)])]),
      ("B", JVal.obj [("customer", JVal.obj [("count", JVal.num 5)])]),
      ("C", JVal.obj [("customer", JVal.obj [("count", JVal.num 10)])])]
    = Except.ok [⟨"C", 10, 0, 0, 10⟩, ⟨"A", 5, 0, 0, 5⟩, ⟨"B", 5, 0, 0, 5⟩] := by
  constructor
  · intro bc _ h
    exact ⟨_, breakdownTable_char bc h, stableSortDescBy_perm _ _,
      stableSortDescBy_sorted _ _, fun v => stableSortDescBy_filter _ v _⟩
  · rfl

/-- Updating a key that is not present appends the new entry. -/
theorem upsertRev_notMem : ∀ (acc : List (JVal × Int)) (L : JVal) (P : Int),
    L ∉ acc.map Prod.fst → upsertRev acc L P = acc ++ [(L, P)]
  | [], _, _, _ => rfl
  | (k, n) :: rest, L, P, h => by
      simp only [List.map_cons, List.mem_cons, not_or] at h
      have hbeq : (k.beq L) = false := by
        simp only [jval_beq_eq, beq_eq_false_iff_ne]
        exact fun he => h.1 he.symm
      unfold upsertRev
      rw [hbeq]
      simp only [Bool.false_eq_true, if_false]
      rw [upsertRev_notMem rest L P h.2]
      rfl

/-- Updating a present key (keys pairwise distinct) is a pointwise map. -/
theorem upsertRev_mem : ∀ (acc : List (JVal × Int)) (L : JVal) (P : Int),
    List.Pairwise (fun a b => a.1 ≠ b.1) acc → L ∈ acc.map Prod.fst →
    upsertRev acc L P = acc.map (fun p => if p.1 = L then (p.1, p.2 + P) else p)
  | [], _, _, _, h => by simp at h
  | (k, n) :: rest, L, P, hnd, h => by
      rw [List.pairwise_cons] at hnd
      unfold upsertRev
      by_cases hk : k = L
      · have hbeq : (k.beq L) = true := by
          simp only [jval_beq_eq]
          exact beq_iff_eq.mpr hk
        rw [hbeq]
        simp only [if_true, List.map_cons]
        rw [if_pos hk]
        congr 1
        have hrest : ∀ p ∈ rest, (if p.1 = L then (p.1, p.2 + P) else p) = p := by
          intro p hp
          rw [if_neg]
          intro hpl
          exact (hnd.1 p hp) (hk.trans hpl.symm)
        rw [List.map_congr_left hrest, List.map_id']
      · have hbeq : (k.beq L) = false := by
          simp only [jval_beq_eq, beq_eq_false_iff_ne]
          exact hk
        rw [hbeq]
        simp only [Bool.false_eq_true, if_false, List.map_cons]
        have hL : L ∈ rest.map Prod.fst := by
          simp only [List.map_cons, List.mem_cons] at h
          rcases h with h1 | h2
          · exact absurd h1.symm hk
          · exact h2
        rw [upsertRev_mem rest L P hnd.2 hL, if_neg hk]

/-- The pointwise update keeps every key. -/
theorem map_fst_upsertRev_mem (acc : List (JVal × Int)) (L : JVal) (P : Int)
    (hnd : List.Pairwise (fun a b => a.1 ≠ b.1) acc) (h : L ∈ acc.map Prod.fst) :
    (upsertRev acc L P).map Prod.fst = acc.map Prod.fst := by
  rw [upsertRev_mem acc L P hnd h, List.map_map]
  refine List.map_congr_left ?_
  intro p hp
  by_cases hpl : p.1 = L <;> simp [Function.comp, hpl]

/-- The update function fixes the first component. -/
theorem fst_upsert_fun (L : JVal) (P : Int) (p : JVal × Int) :
    (if p.1 = L then (p.1, p.2 + P) else p).1 = p.1 := by
  by_cases hpl : p.1 = L <;> simp [hpl]

/-- Updating preserves distinctness of the keys. -/
theorem pairwise_upsertRev (acc : List (JVal × Int)) (L : JVal) (P : Int)
    (hnd : List.Pairwise (fun a b => a.1 ≠ b.1) acc) :
    List.Pairwise (fun a b => a.1 ≠ b.1) (upsertRev acc L P) := by
  by_cases h : L ∈ acc.map Prod.fst
  · rw [upsertRev_mem acc L P hnd h]
    rw [List.pairwise_map]
    refine hnd.imp ?_
    intro a b hab
    rw [fst_upsert_fun, fst_upsert_fun]
    exact hab
  · rw [upsertRev_notMem acc L P h]
    rw [List.pairwise_append]
    refine ⟨hnd, List.pairwise_singleton _ _, ?_⟩
    intro a ha b hb
    simp only [List.mem_singleton] at hb
    subst hb
    intro hab
    apply h
    have haL : a.1 = L := hab
    exact haL ▸ List.mem_map_of_mem Prod.fst ha

/-- Provider labels of a cons: head label then remaining first-seen labels. -/
theorem specProviders_cons (it : JVal) (rest : List JVal) :
    specProviders (it :: rest)
      = specLabel it :: (specProviders rest).filter (fun y => !(y.beq (specLabel it))) := rfl

/-- The head's own revenue contributes its price. -/
theorem specProviderSum_cons_self (it : JVal) (rest : List JVal) :
    specProviderSum (it :: rest) (specLabel it)
      = specPrice it + specProviderSum rest (specLabel it) := by
  simp [specProviderSum, jval_beq_eq]

/-- Revenue of a different provider skips the head. -/
theorem specProviderSum_cons_ne (it : JVal) (rest : List JVal) {q : JVal}
    (h : ¬ specLabel it = q) :
    specProviderSum (it :: rest) q = specProviderSum rest q := by
  have hb : ((specLabel it).beq q) = false := by
    simp only [jval_beq_eq, beq_eq_false_iff_ne]
    exact h
  show (if (specLabel it).beq q then specPrice it else 0) + specProviderSum rest q
      = specProviderSum rest q
  rw [hb]
  simp

/-- Full characterisation of the provider-revenue aggregation: existing
entries (distinct keys) receive their revenue from the processed items, and
new providers are appended in first-seen order with their revenues. -/
theorem aggRev_char : ∀ (items : List JVal) (acc : List (JVal × Int)),
    List.Pairwise (fun a b => a.1 ≠ b.1) acc →
    aggRev items acc
      = acc.map (fun p => (p.1, p.2 + specProviderSum items p.1))
        ++ ((specProviders items).filter (fun q => decide (q ∉ acc.map Prod.fst))).map
            (fun q => (q, specProviderSum items q))
  | [], acc, _ => by
      simp [aggRev, specProviderSum, specProviders, dedupFirst]
  | it :: rest, acc, hnd => by
      have hnd' := pairwise_upsertRev acc (specLabel it) (specPrice it) hnd
      have ih := aggRev_char rest (upsertRev acc (specLabel it) (specPrice it)) hnd'
      show aggRev rest (upsertRev acc (specLabel it) (specPrice it)) = _
      rw [ih]
      by_cases hmem : specLabel it ∈ acc.map Prod.fst
      · rw [map_fst_upsertRev_mem acc _ _ hnd hmem]
        rw [upsertRev_mem acc _ _ hnd hmem, List.map_map]
        congr 1
        · refine List.map_congr_left ?_
          intro p _
          simp only [Function.comp]
          by_cases hpl : p.1 = specLabel it
          · rw [if_pos hpl, hpl, specProviderSum_cons_self]
            simp [add_assoc]
          · rw [if_neg hpl]
            rw [specProviderSum_cons_ne it rest (fun he => hpl he.symm)]
        · rw [specProviders_cons]
          have hLdrop : (decide (specLabel it ∉ acc.map Prod.fst)) = false := by
            simp [hmem]
          rw [List.filter_cons]
          simp only [hLdrop, Bool.false_eq_true, if_false]
          rw [List.filter_filter]
          have hfeq : ∀ q ∈ specProviders rest,
              (decide (q ∉ acc.map Prod.fst) && !(q.beq (specLabel it)))
                = decide (q ∉ acc.map Prod.fst) := by
            intro q _
            by_cases hq : q ∈ acc.map Prod.fst
            · simp [hq]
            · have hqL : ¬ q = specLabel it := fun he => hq (he ▸ hmem)
              simp [hq, jval_beq_eq, hqL]
          rw [List.filter_congr hfeq]
          refine List.map_congr_left ?_
          intro q hq
          have hq2 := (List.mem_filter.mp hq).2
          have hqn : q ∉ acc.map Prod.fst := of_decide_eq_true hq2
          have hqL : ¬ specLabel it = q := fun he => hqn (he ▸ hmem)
          rw [specProviderSum_cons_ne it rest hqL]
      · rw [upsertRev_notMem acc _ _ hmem]
        have hkeys : ((acc ++ [(specLabel it, specPrice it)]).map Prod.fst)
            = acc.map Prod.fst ++ [specLabel it] := by
          rw [List.map_append]
          rfl
        rw [hkeys, List.map_append, List.append_assoc]
        congr 1
        · refine List.map_congr_left ?_
          intro p hp
          have hpL : ¬ specLabel it = p.1 := by
            intro he
            exact hmem (he ▸ List.mem_map_of_mem Prod.fst hp)
          rw [specProviderSum_cons_ne it rest hpL]
        · rw [specProviders_cons, List.filter_cons]
          have hLkeep : (decide (specLabel it ∉ acc.map Prod.fst)) = true := by
            simp [hmem]
          simp only [hLkeep, if_true, List.map_cons, List.map_nil,
            List.singleton_append]
          have htail : List.map (fun q => (q, specProviderSum rest q))
              (List.filter (fun q => decide (q ∉ acc.map Prod.fst ++ [specLabel it]))
                (specProviders rest))
            = List.map (fun q => (q, specProviderSum (it :: rest) q))
              (List.filter (fun q => decide (q ∉ acc.map Prod.fst))
                (List.filter (fun y => !(y.beq (specLabel it))) (specProviders rest))) := by
            rw [List.filter_filter]
            have hfeq : ∀ q ∈ specProviders rest,
                (decide (q ∉ acc.map Prod.fst) && !(q.beq (specLabel it)))
                  = decide (q ∉ acc.map Prod.fst ++ [specLabel it]) := by
              intro q _
              rw [Bool.eq_iff_iff]
              simp [List.mem_append, not_or, beq_eq_false_iff_ne, and_comm]
            rw [List.filter_congr hfeq]
            refine List.map_congr_left ?_
            intro q hq
            have hq2 := (List.mem_filter.mp hq).2
            have hqn := of_decide_eq_true hq2
            have hqL : ¬ specLabel it = q := by
              intro he
              exact hqn (by
                rw [List.mem_append]
                right
                simp [he])
            rw [specProviderSum_cons_ne it rest hqL]
          rw [← htail, specProviderSum_cons_self]

/-- With an empty accumulator the aggregation is exactly the spec table. -/
theorem aggRev_nil (items : List JVal) : aggRev items [] = specProviderTable items := by
  rw [aggRev_char items [] List.Pairwise.nil]
  simp [specProviderTable]

/-- A default-resolved field keeps its well-shapedness predicate when the
predicate accepts null. -/
theorem fieldIs_getD_null {fs : List (String × JVal)} {k : String} {p : JVal → Bool}
    (hnull : p JVal.null = true) (h : fieldIs fs k p = true) :
    p ((lookupField fs k).getD JVal.null) = true := by
  rcases fieldIs_cases h with h0 | ⟨v, h0, hv⟩
  · rw [h0]
    exact hnull
  · rw [h0]
    exact hv

/-- A falsy-or-string provider name, defaulted with 'Unknown', is hashable. -/
theorem pyHashable_label {v : JVal} (h : strOrFalsy v = true) :
    pyHashable (pyOr v (.str "Unknown")) = true := by
  unfold pyOr
  by_cases ht : truthy v = true
  · rw [if_pos ht]
    rcases strOrFalsy_cases h with hf | ⟨s, rfl⟩
    · rw [ht] at hf
      exact absurd hf (by simp)
    · rfl
  · rw [if_neg ht]
    rfl

/-- The provider-revenue loop computes the pure aggregation on well-shaped
preview items. -/
theorem buildProviderRev_char : ∀ (items : List JVal) (acc : List (JVal × Int)),
    (∀ it ∈ items, wsBookingItem it = true) →
    buildProviderRev items acc = Except.ok (aggRev items acc)
  | [], _, _ => rfl
  | item :: rest, acc, h => by
      have hit := h item (List.mem_cons_self _ _)
      obtain ⟨fs, rfl⟩ : ∃ fs, item = JVal.obj fs := by
        cases item
        case obj fs => exact ⟨fs, rfl⟩
        all_goals simp [wsBookingItem] at hit
      simp only [wsBookingItem, Bool.and_eq_true] at hit
      have hsp : strOrFalsy ((lookupField fs "service_provider_name").getD JVal.null) = true :=
        fieldIs_getD_null rfl hit.2
      have htp : numOrFalsy ((lookupField fs "total_price").getD JVal.null) = true :=
        fieldIs_getD_null rfl hit.1.2
      unfold buildProviderRev
      rw [pyDictGet]
      simp only [py_bind_ok]
      rw [pyHashable_label hsp]
      simp only [if_true]
      rw [pyDictGet]
      simp only [py_bind_ok]
      rw [asNum_or_zero htp]
      simp only [py_bind_ok]
      rw [buildProviderRev_char rest _ (fun it2 hit2 => h it2 (List.mem_cons_of_mem _ hit2))]
      rfl

/-- C4: `topProviders` sums `total_price` (default 0) per provider label
("Unknown" when the name is absent or falsy), sorts descending by summed
revenue with ties kept in first-seen aggregation order (for every revenue
value, the tied providers appear exactly in table order), and returns at
most the top 5; for preview items X:10, Y:30, X:25 the result is
[(X, 35), (Y, 30)]. -/
theorem C4_top_providers :
    (∀ items : List JVal, (∀ it ∈ items, wsBookingItem it = true) →
      ∃ tp, topProviders items = Except.ok tp ∧
        tp = (stableSortDescBy (fun pr => pr.2) (specProviderTable items)).take 5 ∧
        tp.length ≤ 5 ∧
        List.Sorted (fun x y => y.2 ≤ x.2) tp ∧
        (∀ pr ∈ tp, pr.2 = specProviderSum items pr.1 ∧ pr.1 ∈ specProviders items) ∧
        (∀ v : Int, (stableSortDescBy (fun pr => pr.2) (specProviderTable items)).filter
            (fun pr => pr.2 == v)
          = (specProviderTable items).filter (fun pr => pr.2 == v)))
  ∧ topProviders
      [JVal.obj [("service_provider_name", JVal.str "X"), ("total_price", JVal.num 10)],
       JVal.obj [("service_provider_name", JVal.str "Y"), ("total_price", JVal.num 30)],
       JVal.obj [("service_provider_name", JVal.str "X"), ("total_price", JVal.num 25)]]
    = Except.ok [(JVal.str "X", 35), (JVal.str "Y", 30)] := by
  constructor
  · intro items h
    have hok : topProviders items
        = Except.ok ((stableSortDescBy (fun pr => pr.2) (specProviderTable items)).take 5) := by
      unfold topProviders
      rw [buildProviderRev_char items [] h]
      simp only [py_bind_ok, py_pure]
      rw [aggRev_nil]
    have hsorted := stableSortDescBy_sorted (fun pr : JVal × Int => pr.2)
      (specProviderTable items)
    refine ⟨_, hok, rfl, List.length_take_le 5 _,
      List.Pairwise.sublist (List.take_sublist 5 _) hsorted,
      ?_, fun v => stableSortDescBy_filter _ v _⟩
    intro pr hpr
    have h1 : pr ∈ stableSortDescBy (fun pr => pr.2) (specProviderTable items) :=
      List.take_subset 5 _ hpr
    have h2 : pr ∈ specProviderTable items := (stableSortDescBy_perm _ _).mem_iff.mp h1
    obtain ⟨q, hq, rfl⟩ := List.mem_map.mp h2
    exact ⟨rfl, hq⟩
  · rfl

/-- Witness for C4 at the claim's concrete preview. -/
theorem C4_top_providers_witness :
    ∃ tp, topProviders
        [JVal.obj [("service_provider_name", JVal.str "X"), ("total_price", JVal.num 10)],
         JVal.obj [("service_provider_name", JVal.str "Y"), ("total_price", JVal.num 30)],
         JVal.obj [("service_provider_name", JVal.str "X"), ("total_price", JVal.num 25)]]
      = Except.ok tp ∧ tp.length ≤ 5 ∧ List.Sorted (fun x y => y.2 ≤ x.2) tp := by
  obtain ⟨tp, h1, _, h3, h4, _, _⟩ := C4_top_providers.1
    [JVal.obj [("service_provider_name", JVal.str "X"), ("total_price", JVal.num 10)],
     JVal.obj [("service_provider_name", JVal.str "Y"), ("total_price", JVal.num 30)],
     JVal.obj [("service_provider_name", JVal.str "X"), ("total_price", JVal.num 25)]]
    (by decide)
  exact ⟨tp, h1, h3, h4⟩

/-- Slicing `v or ''` of a falsy-or-string value, with its exact value. -/
theorem slice_or_char {v : JVal} (h : strOrFalsy v = true) (n : Nat) :
    pySlice (pyOr v (.str "")) n = Except.ok (match pyOr v (.str "") with
      | JVal.str s => JVal.str (s.take n)
      | w => w) := by
  rcases strOrFalsy_cases h with hf | ⟨s, rfl⟩
  · rw [pyOr, hf]
    rfl
  · unfold pyOr
    by_cases hs : truthy (JVal.str s) = true
    · rw [if_pos hs]
      rfl
    · rw [if_neg hs]
      rfl

/-- Case split on a well-shaped preview value. -/
theorem wsPreviewWith_cases {itemOk : JVal → Bool} {v : JVal}
    (h : wsPreviewWith itemOk v = true) :
    truthy v = false ∨ ∃ l, v = JVal.arr l ∧ truthy v = true ∧ ∀ it ∈ l, itemOk it = true := by
  unfold wsPreviewWith at h
  by_cases ht : truthy v = true
  · right
    rw [ht] at h
    simp only [Bool.not_true, Bool.false_or] at h
    cases v with
    | arr l =>
        refine ⟨l, rfl, ht, ?_⟩
        exact List.all_eq_true.mp h
    | null => simp at h
    | bool b => simp at h
    | num n => simp at h
    | str s => simp at h
    | obj fs => simp at h
  · exact .inl (by simpa using ht)

/-- The inner map-point loop keeps exactly the items with both coordinates,
projected as spec-side point records. -/
theorem pointsOfItems_char (cc ut : String) : ∀ (items : List JVal),
    (∀ it ∈ items, wsItemGeo it = true) →
    pointsOfItems cc ut items = Except.ok ((items.filter hasCoords).map (specPoint cc ut))
  | [], _ => rfl
  | item :: rest, h => by
      have hit := h item (List.mem_cons_self _ _)
      obtain ⟨fs, rfl⟩ : ∃ fs, item = JVal.obj fs := by
        cases item
        case obj fs => exact ⟨fs, rfl⟩
        all_goals simp [wsItemGeo] at hit
      have hcr : strOrFalsy ((lookupField fs "created").getD JVal.null) = true := by
        simp only [wsItemGeo] at hit
        exact fieldIs_getD_null rfl hit
      have hrest := pointsOfItems_char cc ut rest (fun i hi => h i (List.mem_cons_of_mem _ hi))
      unfold pointsOfItems
      rw [pyDictGet]
      simp only [py_bind_ok]
      rw [pyDictGet]
      simp only [py_bind_ok]
      by_cases hq : hasCoords (JVal.obj fs) = true
      · have hcond : (!((lookupField fs "latitude").getD JVal.null).beq JVal.null
            && !((lookupField fs "longitude").getD JVal.null).beq JVal.null) = true := by
          simpa [hasCoords, jget_obj] using hq
        rw [hcond]
        simp only [if_true]
        rw [pyDictGet]
        simp only [py_bind_ok]
        rw [pyDictGet]
        simp only [py_bind_ok]
        rw [slice_or_char hcr]
        simp only [py_bind_ok]
        rw [hrest]
        simp only [py_bind_ok, py_pure]
        rw [List.filter_cons]
        simp only [hq, if_true, List.map_cons]
        rfl
      · have hcond : (!((lookupField fs "latitude").getD JVal.null).beq JVal.null
            && !((lookupField fs "longitude").getD JVal.null).beq JVal.null) = false := by
          have := Bool.eq_false_iff.mpr hq
          simpa [hasCoords, jget_obj] using this
        rw [hcond]
        simp only [Bool.false_eq_true, if_false]
        rw [hrest]
        rw [List.filter_cons]
        simp only [hq, Bool.false_eq_true, if_false]

/-- The per-type preview resolution agrees with the spec-side preview list,
and every produced item is well-shaped. -/
theorem previewsOf_char (ifs : List (String × JVal)) (ut : String)
    (h : fieldIs ifs ut wsCountryTypeBlock = true) :
    previewsOf (JVal.obj ifs) ut = Except.ok (specPreviewItems (JVal.obj ifs) ut)
    ∧ ∀ it ∈ specPreviewItems (JVal.obj ifs) ut, wsItemGeo it = true := by
  unfold previewsOf specPreviewItems
  rw [pyDictGet, jget_obj]
  rcases fieldIs_cases h with h0 | ⟨v, h0, hv⟩
  · rw [h0]
    exact ⟨rfl, fun it hit => absurd hit (List.not_mem_nil it)⟩
  · rw [h0]
    simp only [Option.getD_some, py_bind_ok]
    rcases wsCountryTypeBlock_cases hv with hf | ⟨tfs, rfl, htv, _, hp⟩
    · have hpor : pyOr v (JVal.obj []) = JVal.obj [] := by
        rw [pyOr, hf]
        rfl
      rw [hpor]
      exact ⟨rfl, fun it hit => absurd hit (List.not_mem_nil it)⟩
    · have hpor : pyOr (JVal.obj tfs) (JVal.obj []) = JVal.obj tfs := by
        rw [pyOr, htv]
        rfl
      rw [hpor, pyDictGet, jget_obj]
      rcases fieldIs_cases hp with hpn | ⟨pv, hpn, hpv⟩
      · rw [hpn]
        exact ⟨rfl, fun it hit => absurd hit (List.not_mem_nil it)⟩
      · rw [hpn]
        simp only [Option.getD_some, py_bind_ok]
        rcases wsPreviewWith_cases hpv with hpf | ⟨l, rfl, hpt, hall⟩
        · have hpor2 : pyOr pv (JVal.arr []) = JVal.arr [] := by
            rw [pyOr, hpf]
            rfl
          rw [hpor2]
          exact ⟨rfl, fun it hit => absurd hit (List.not_mem_nil it)⟩
        · have hpor2 : pyOr (JVal.arr l) (JVal.arr []) = JVal.arr l := by
            rw [pyOr, hpt]
            rfl
          rw [hpor2]
          exact ⟨rfl, hall⟩

/-- Map points of one country: the three user types in source order, each
filtered to coordinate-carrying items. -/
theorem pointsOfCountry_char (cc : String) (ifs : List (String × JVal))
    (h : wsCountryInfo (JVal.obj ifs) = true) :
    pointsOfCountry cc (JVal.obj ifs) = Except.ok
      ((["customer", "artist", "business"]).flatMap (fun ut =>
        ((specPreviewItems (JVal.obj ifs) ut).filter hasCoords).map (specPoint cc ut))) := by
  simp only [wsCountryInfo, Bool.and_eq_true] at h
  obtain ⟨hpc, hpcgeo⟩ := previewsOf_char ifs "customer" h.1.1.2
  obtain ⟨hpa, hpageo⟩ := previewsOf_char ifs "artist" h.1.2
  obtain ⟨hpb, hpbgeo⟩ := previewsOf_char ifs "business" h.2
  unfold pointsOfCountry
  rw [hpc]
  simp only [py_bind_ok]
  rw [pointsOfItems_char cc "customer" _ hpcgeo]
  simp only [py_bind_ok]
  rw [hpa]
  simp only [py_bind_ok]
  rw [pointsOfItems_char cc "artist" _ hpageo]
  simp only [py_bind_ok]
  rw [hpb]
  simp only [py_bind_ok]
  rw [pointsOfItems_char cc "business" _ hpbgeo]
  simp only [py_bind_ok, py_pure]
  simp [List.flatMap_cons, List.append_assoc]

/-- The full map-point flattening equals the spec-side mapPoints. -/
theorem pointsOfCountries_char : ∀ (bc : List (String × JVal)),
    (∀ kv ∈ bc, wsCountryInfo kv.2 = true) →
    pointsOfCountries bc = Except.ok (specMapPoints bc)
  | [], _ => rfl
  | (cc, info) :: rest, h => by
      have hinfo := h (cc, info) (List.mem_cons_self _ _)
      obtain ⟨ifs, rfl⟩ : ∃ ifs, info = JVal.obj ifs := by
        cases info
        case obj ifs => exact ⟨ifs, rfl⟩
        all_goals simp [wsCountryInfo] at hinfo
      unfold pointsOfCountries
      rw [pointsOfCountry_char cc ifs hinfo]
      simp only [py_bind_ok]
      rw [pointsOfCountries_char rest (fun kv hkv => h kv (List.mem_cons_of_mem _ hkv))]
      simp only [py_bind_ok, py_pure]
      rfl

/-- C7: mapPoints holds exactly one point record for every preview item —
across all countries of `by_country` and the three user types — that
carries both latitude and longitude non-null, and silently excludes every
item missing either coordinate; with one item carrying both coordinates and
one carrying only latitude, mapPoints has length 1. -/
theorem C7_map_points :
    (∀ bc : List (String × JVal), (∀ kv ∈ bc, wsCountryInfo kv.2 = true) →
      pointsOfCountries bc = Except.ok (specMapPoints bc))
  ∧ (pointsOfCountries [("US", JVal.obj [("customer", JVal.obj [("preview", JVal.arr
      [JVal.obj [("latitude", JVal.num 1), ("longitude", JVal.num 2)],
       JVal.obj [("latitude", JVal.num 3)]])])])]).map List.length = Except.ok 1 := by
  constructor
  · exact pointsOfCountries_char
  · rfl

/-- Witness for C7 at a concrete two-item preview. -/
theorem C7_map_points_witness :
    pointsOfCountries [("US", JVal.obj [("customer", JVal.obj [("preview", JVal.arr
      [JVal.obj [("latitude", JVal.num 1), ("longitude", JVal.num 2)],
       JVal.obj [("latitude", JVal.num 3)]])])])]
    = Except.ok (specMapPoints [("US", JVal.obj [("customer", JVal.obj [("preview", JVal.arr
      [JVal.obj [("latitude", JVal.num 1), ("longitude", JVal.num 2)],
       JVal.obj [("latitude", JVal.num 3)]])])])]) :=
  C7_map_points.1 [("US", JVal.obj [("customer", JVal.obj [("preview", JVal.arr
      [JVal.obj [("latitude", JVal.num 1), ("longitude", JVal.num 2)],
       JVal.obj [("latitude", JVal.num 3)]])])])] (by decide)

/-- A string-classified value is a string literal. -/
theorem isStr_cases : ∀ {v : JVal}, isStr v = true → ∃ s, v = JVal.str s
  | .str s, _ => ⟨s, rfl⟩
  | .null, h => by simp [isStr] at h
  | .bool _, h => by simp [isStr] at h
  | .num _, h => by simp [isStr] at h
  | .arr _, h => by simp [isStr] at h
  | .obj _, h => by simp [isStr] at h

/-- The 'Created' cell never raises when `created` is absent or a string. -/
theorem rowCreated_ok (fs : List (String × JVal))
    (h : fieldIs fs "created" isStr = true) :
    ∃ c, rowCreated (JVal.obj fs) = Except.ok c := by
  unfold rowCreated
  rw [pyDictGet]
  rcases fieldIs_cases h with h0 | ⟨v, h0, hv⟩
  · rw [h0]
    simp only [Option.getD_none, py_bind_ok, JVal.beq, Bool.false_eq_true, if_false]
    rw [pyDictGet, h0]
    exact ⟨_, rfl⟩
  · obtain ⟨s, rfl⟩ := isStr_cases hv
    rw [h0]
    simp only [Option.getD_some, py_bind_ok]
    by_cases hb : (JVal.str s).beq (.str "N/A") = true
    · rw [hb]
      exact ⟨_, rfl⟩
    · rw [Bool.eq_false_iff.mpr hb]
      simp only [Bool.false_eq_true, if_false]
      rw [pyDictGet, h0]
      exact ⟨_, rfl⟩

/-- The 'User ID' cell never raises when `user_id` is absent or a string. -/
theorem rowUserId_ok (fs : List (String × JVal))
    (h : fieldIs fs "user_id" isStr = true) :
    ∃ u, rowUserId (JVal.obj fs) = Except.ok u := by
  rcases fieldIs_cases h with h0 | ⟨v, h0, hv⟩
  · unfold rowUserId
    rw [pyDictGet, h0]
    simp only [Option.getD_none, py_bind_ok, pyLen]
    rw [if_neg (by decide)]
    rw [pyDictGet, h0]
    exact ⟨_, rfl⟩
  · obtain ⟨s, rfl⟩ := isStr_cases hv
    by_cases hl : s.length ≤ 8
    · exact ⟨_, rowUserId_short fs s h0 hl⟩
    · exact ⟨_, rowUserId_long fs s h0 (by omega)⟩

/-- A 24-hour/7-day row never raises on a well-shaped item. -/
theorem rowBasic_ok (fs : List (String × JVal)) (h : wsItemUser (JVal.obj fs) = true) :
    ∃ r, rowBasic (JVal.obj fs) = Except.ok r := by
  simp only [wsItemUser, Bool.and_eq_true] at h
  obtain ⟨u, hu⟩ := rowUserId_ok fs h.1
  obtain ⟨c, hc⟩ := rowCreated_ok fs h.2
  unfold rowBasic
  rw [pyDictGet]
  simp only [py_bind_ok]
  rw [hu]
  simp only [py_bind_ok]
  rw [hc]
  exact ⟨_, rfl⟩

/-- A truthiness-guarded defaulted read never raises on a dict. -/
theorem ifGet_ok (fs : List (String × JVal)) (k : String) (b : Bool) :
    ∃ o, (if b = true then pyDictGet (JVal.obj fs) k (.str "") else pure (JVal.str ""))
      = Except.ok o := by
  cases b
  · exact ⟨_, rfl⟩
  · exact ⟨_, rfl⟩

/-- A 30-day row never raises on a well-shaped item. -/
theorem row30_ok (fs : List (String × JVal)) (h : wsItemUser (JVal.obj fs) = true) :
    ∃ r, row30 (JVal.obj fs) = Except.ok r := by
  simp only [wsItemUser, Bool.and_eq_true] at h
  obtain ⟨u, hu⟩ := rowUserId_ok fs h.1
  obtain ⟨c, hc⟩ := rowCreated_ok fs h.2
  unfold row30
  simp only [pyDictGet, py_bind_ok, py_pure]
  by_cases ho : truthy ((lookupField fs "occupation").getD JVal.null) = true
  · rw [if_pos ho]
    by_cases hs : truthy ((lookupField fs "slug").getD JVal.null) = true
    · rw [if_pos hs]
      rw [hu]
      simp only [py_bind_ok]
      rw [hc]
      exact ⟨_, rfl⟩
    · rw [if_neg hs]
      rw [hu]
      simp only [py_bind_ok]
      rw [hc]
      exact ⟨_, rfl⟩
  · rw [if_neg ho]
    by_cases hs : truthy ((lookupField fs "slug").getD JVal.null) = true
    · rw [if_pos hs]
      rw [hu]
      simp only [py_bind_ok]
      rw [hc]
      exact ⟨_, rfl⟩
    · rw [if_neg hs]
      rw [hu]
      simp only [py_bind_ok]
      rw [hc]
      exact ⟨_, rfl⟩

/-- The 24-hour/7-day row loop never raises on well-shaped items. -/
theorem buildRowsBasic_ok : ∀ (items : List JVal), (∀ it ∈ items, wsItemUser it = true) →
    ∃ rows, buildRowsBasic items = Except.ok rows
  | [], _ => ⟨[], rfl⟩
  | item :: rest, h => by
      have hit := h item (List.mem_cons_self _ _)
      obtain ⟨fs, rfl⟩ : ∃ fs, item = JVal.obj fs := by
        cases item
        case obj fs => exact ⟨fs, rfl⟩
        all_goals simp [wsItemUser] at hit
      obtain ⟨r, hr⟩ := rowBasic_ok fs hit
      obtain ⟨rs, hrs⟩ := buildRowsBasic_ok rest (fun i hi => h i (List.mem_cons_of_mem _ hi))
      refine ⟨r :: rs, ?_⟩
      unfold buildRowsBasic
      rw [hr]
      simp only [py_bind_ok]
      rw [hrs]
      rfl

/-- The 30-day row loop never raises on well-shaped items. -/
theorem buildRows30_ok : ∀ (items : List JVal), (∀ it ∈ items, wsItemUser it = true) →
    ∃ rows, buildRows30 items = Except.ok rows
  | [], _ => ⟨[], rfl⟩
  | item :: rest, h => by
      have hit := h item (List.mem_cons_self _ _)
      obtain ⟨fs, rfl⟩ : ∃ fs, item = JVal.obj fs := by
        cases item
        case obj fs => exact ⟨fs, rfl⟩
        all_goals simp [wsItemUser] at hit
      obtain ⟨r, hr⟩ := row30_ok fs hit
      obtain ⟨rs, hrs⟩ := buildRows30_ok rest (fun i hi => h i (List.mem_cons_of_mem _ hi))
      refine ⟨r :: rs, ?_⟩
      unfold buildRows30
      rw [hr]
      simp only [py_bind_ok]
      rw [hrs]
      rfl

/-- A well-shaped period record is a dict with classified fields. -/
theorem wsPeriodData_cases {v : JVal} (h : wsPeriodData v = true) :
    ∃ pfs, v = JVal.obj pfs ∧ fieldIs pfs "count" isNum = true ∧
      fieldIs pfs "preview" (wsPreviewWith wsItemUser) = true := by
  cases v with
  | obj pfs =>
      simp only [wsPeriodData, Bool.and_eq_true] at h
      exact ⟨pfs, rfl, h.1, h.2⟩
  | null => simp [wsPeriodData] at h
  | bool b => simp [wsPeriodData] at h
  | num n => simp [wsPeriodData] at h
  | str s => simp [wsPeriodData] at h
  | arr l => simp [wsPeriodData] at h

/-- One 24-hour/7-day tab never raises on a well-shaped type record. -/
theorem periodViewBasic_ok (tfs : List (String × JVal)) (period : String)
    (h : fieldIs tfs period wsPeriodData = true) :
    ∃ pv, periodViewBasic (JVal.obj tfs) period = Except.ok pv := by
  unfold periodViewBasic
  rw [pyDictGet]
  rcases fieldIs_cases h with h0 | ⟨v, h0, hv⟩
  · rw [h0]
    exact ⟨_, rfl⟩
  · rw [h0]
    simp only [Option.getD_some, py_bind_ok]
    obtain ⟨pfs, rfl, _, hprev⟩ := wsPeriodData_cases hv
    rw [pyDictGet]
    simp only [py_bind_ok]
    rw [pyDictGet]
    simp only [py_bind_ok]
    rcases fieldIs_cases hprev with hp0 | ⟨pv, hp0, hpv⟩
    · rw [hp0]
      exact ⟨_, rfl⟩
    · rw [hp0]
      simp only [Option.getD_some]
      rcases wsPreviewWith_cases hpv with hpf | ⟨l, rfl, hpt, hall⟩
      · rw [hpf]
        simp only [Bool.false_eq_true, if_false]
        exact ⟨_, rfl⟩
      · rw [hpt]
        simp only [if_true]
        simp only [pyIter, py_bind_ok]
        obtain ⟨rows, hrows⟩ := buildRowsBasic_ok l hall
        rw [hrows]
        exact ⟨_, rfl⟩

/-- The 30-day tab never raises on a well-shaped type record. -/
theorem periodView30_ok (tfs : List (String × JVal)) (period : String)
    (h : fieldIs tfs period wsPeriodData = true) :
    ∃ pv, periodView30 (JVal.obj tfs) period = Except.ok pv := by
  unfold periodView30
  rw [pyDictGet]
  rcases fieldIs_cases h with h0 | ⟨v, h0, hv⟩
  · rw [h0]
    exact ⟨_, rfl⟩
  · rw [h0]
    simp only [Option.getD_some, py_bind_ok]
    obtain ⟨pfs, rfl, _, hprev⟩ := wsPeriodData_cases hv
    rw [pyDictGet]
    simp only [py_bind_ok]
    rw [pyDictGet]
    simp only [py_bind_ok]
    rcases fieldIs_cases hprev with hp0 | ⟨pv, hp0, hpv⟩
    · rw [hp0]
      exact ⟨_, rfl⟩
    · rw [hp0]
      simp only [Option.getD_some]
      rcases wsPreviewWith_cases hpv with hpf | ⟨l, rfl, hpt, hall⟩
      · rw [hpf]
        simp only [Bool.false_eq_true, if_false]
        exact ⟨_, rfl⟩
      · rw [hpt]
        simp only [if_true]
        simp only [pyIter, py_bind_ok]
        obtain ⟨rows, hrows⟩ := buildRows30_ok l hall
        rw [hrows]
        exact ⟨_, rfl⟩

/-- A well-shaped type record is a dict of well-shaped periods. -/
theorem wsTypeData_fields {v : JVal} (h : wsTypeData v = true) :
    ∃ tfs, v = JVal.obj tfs ∧ fieldIs tfs "new_24_hours" wsPeriodData = true ∧
      fieldIs tfs "new_7_days" wsPeriodData = true ∧
      fieldIs tfs "new_30_days" wsPeriodData = true := by
  cases v with
  | obj tfs =>
      simp only [wsTypeData, Bool.and_eq_true] at h
      exact ⟨tfs, rfl, h.1.1, h.1.2, h.2⟩
  | null => simp [wsTypeData] at h
  | bool b => simp [wsTypeData] at h
  | num n => simp [wsTypeData] at h
  | str s => simp [wsTypeData] at h
  | arr l => simp [wsTypeData] at h

/-- A well-shaped `types` mapping is a dict of well-shaped type records. -/
theorem wsTypes_fields {v : JVal} (h : wsTypes v = true) :
    ∃ tsfs, v = JVal.obj tsfs ∧ fieldIs tsfs "customer" wsTypeData = true ∧
      fieldIs tsfs "artist" wsTypeData = true ∧
      fieldIs tsfs "business" wsTypeData = true := by
  cases v with
  | obj tsfs =>
      simp only [wsTypes, Bool.and_eq_true] at h
      exact ⟨tsfs, rfl, h.1.1, h.1.2, h.2⟩
  | null => simp [wsTypes] at h
  | bool b => simp [wsTypes] at h
  | num n => simp [wsTypes] at h
  | str s => simp [wsTypes] at h
  | arr l => simp [wsTypes] at h

/-- A well-shaped `user` record is a dict with classified fields. -/
theorem wsUserData_fields {v : JVal} (h : wsUserData v = true) :
    ∃ ufs, v = JVal.obj ufs ∧ fieldIs ufs "types" wsTypes = true ∧
      fieldIs ufs "by_country" wsByCountryVal = true := by
  cases v with
  | obj ufs =>
      simp only [wsUserData, Bool.and_eq_true] at h
      exact ⟨ufs, rfl, h.1.2, h.2⟩
  | null => simp [wsUserData] at h
  | bool b => simp [wsUserData] at h
  | num n => simp [wsUserData] at h
  | str s => simp [wsUserData] at h
  | arr l => simp [wsUserData] at h

/-- The overview metrics never raise on a well-shaped payload. -/
theorem display_overview_metrics_ok (fs : List (String × JVal))
    (hu : fieldIs fs "user" wsUserData = true) :
    ∃ r, display_overview_metrics (JVal.obj fs) = Except.ok r := by
  rcases fieldIs_cases hu with h0 | ⟨v, h0, hv⟩
  · refine ⟨⟨JVal.num 0, JVal.num 0, JVal.num 0⟩, ?_⟩
    unfold display_overview_metrics
    rw [pyDictGet, h0]
    rfl
  · obtain ⟨ufs, rfl, _, _⟩ := wsUserData_fields hv
    exact ⟨_, overview_user_obj fs ufs h0⟩

/-- The per-type metrics never raise on a well-shaped payload, for each of
the three user types the dashboard renders. -/
theorem display_metrics_by_type_ok (fs : List (String × JVal)) (ut : String)
    (hu : fieldIs fs "user" wsUserData = true)
    (hut : ut = "customer" ∨ ut = "artist" ∨ ut = "business") :
    ∃ r, display_metrics_by_type (JVal.obj fs) ut = Except.ok r := by
  obtain ⟨ufs, hufs, htypes⟩ : ∃ ufs,
      ((lookupField fs "user").getD (JVal.obj [])) = JVal.obj ufs ∧
      fieldIs ufs "types" wsTypes = true := by
    rcases fieldIs_cases hu with h0 | ⟨v, h0, hv⟩
    · rw [h0]
      exact ⟨[], rfl, rfl⟩
    · obtain ⟨ufs, rfl, ht, _⟩ := wsUserData_fields hv
      rw [h0]
      exact ⟨ufs, rfl, ht⟩
  obtain ⟨tsfs, htsfs, htd⟩ : ∃ tsfs,
      ((lookupField ufs "types").getD (JVal.obj [])) = JVal.obj tsfs ∧
      fieldIs tsfs ut wsTypeData = true := by
    rcases fieldIs_cases htypes with h0 | ⟨v, h0, hv⟩
    · rw [h0]
      exact ⟨[], rfl, rfl⟩
    · obtain ⟨tsfs, rfl, hc, ha, hb⟩ := wsTypes_fields hv
      rw [h0]
      refine ⟨tsfs, rfl, ?_⟩
      rcases hut with rfl | rfl | rfl
      · exact hc
      · exact ha
      · exact hb
  obtain ⟨tfs, htfs, h24, h7, h30⟩ : ∃ tfs,
      ((lookupField tsfs ut).getD (JVal.obj [])) = JVal.obj tfs ∧
      fieldIs tfs "new_24_hours" wsPeriodData = true ∧
      fieldIs tfs "new_7_days" wsPeriodData = true ∧
      fieldIs tfs "new_30_days" wsPeriodData = true := by
    rcases fieldIs_cases htd with h0 | ⟨v, h0, hv⟩
    · rw [h0]
      exact ⟨[], rfl, rfl, rfl, rfl⟩
    · obtain ⟨tfs, rfl, a, b, c⟩ := wsTypeData_fields hv
      rw [h0]
      exact ⟨tfs, rfl, a, b, c⟩
  obtain ⟨p1, hp1⟩ := periodViewBasic_ok tfs "new_24_hours" h24
  obtain ⟨p2, hp2⟩ := periodViewBasic_ok tfs "new_7_days" h7
  obtain ⟨p3, hp3⟩ := periodView30_ok tfs "new_30_days" h30
  unfold display_metrics_by_type
  rw [pyDictGet]
  simp only [py_bind_ok]
  rw [hufs, pyDictGet]
  simp only [py_bind_ok]
  rw [htsfs, pyDictGet]
  simp only [py_bind_ok]
  rw [htfs, hp1]
  simp only [py_bind_ok]
  rw [hp2]
  simp only [py_bind_ok]
  rw [hp3]
  exact ⟨_, rfl⟩

/-- Case split on a well-shaped `by_country` value. -/
theorem wsByCountryVal_cases {v : JVal} (h : wsByCountryVal v = true) :
    truthy v = false ∨ ∃ bfs, v = JVal.obj bfs ∧ truthy v = true ∧
      ∀ kv ∈ bfs, wsCountryInfo kv.2 = true := by
  unfold wsByCountryVal at h
  by_cases ht : truthy v = true
  · right
    rw [ht] at h
    simp only [Bool.not_true, Bool.false_or] at h
    cases v with
    | obj bfs =>
        refine ⟨bfs, rfl, ht, ?_⟩
        exact List.all_eq_true.mp h
    | null => simp at h
    | bool b => simp at h
    | num n => simp at h
    | str s => simp at h
    | arr l => simp at h
  · exact .inl (by simpa using ht)

/-- The 30-day country total never raises on well-shaped country records. -/
theorem totalNew30dSum_ok : ∀ (bc : List (String × JVal)),
    (∀ kv ∈ bc, wsCountryInfo kv.2 = true) →
    ∃ n, totalNew30dSum bc = Except.ok n
  | [], _ => ⟨0, rfl⟩
  | (cc, info) :: rest, h => by
      have hinfo := h (cc, info) (List.mem_cons_self _ _)
      obtain ⟨ifs, rfl⟩ : ∃ ifs, info = JVal.obj ifs := by
        cases info
        case obj ifs => exact ⟨ifs, rfl⟩
        all_goals simp [wsCountryInfo] at hinfo
      simp only [wsCountryInfo, Bool.and_eq_true] at hinfo
      have h30 : numOrFalsy ((lookupField ifs "total_last_30_days").getD (JVal.num 0)) = true := by
        rcases fieldIs_cases hinfo.1.1.1 with h0 | ⟨v, h0, hv⟩
        · rw [h0]
          decide
        · rw [h0]
          exact hv
      obtain ⟨s, hs⟩ := totalNew30dSum_ok rest (fun kv hkv => h kv (List.mem_cons_of_mem _ hkv))
      have heq : totalNew30dSum ((cc, JVal.obj ifs) :: rest) = Except.ok
          ((match pyOr ((lookupField ifs "total_last_30_days").getD (JVal.num 0)) (JVal.num 0) with
            | JVal.num n => n
            | _ => 0) + s) := by
        unfold totalNew30dSum
        rw [pyDictGet]
        simp only [py_bind_ok]
        rw [asNum_or_zero h30]
        simp only [py_bind_ok]
        rw [hs]
        rfl
      exact ⟨_, heq⟩

/-- The bar-chart rows never raise on well-shaped country records. -/
theorem chartRowsUnsorted_ok : ∀ (bc : List (String × JVal)),
    (∀ kv ∈ bc, wsCountryInfo kv.2 = true) →
    ∃ rows, chartRowsUnsorted bc = Except.ok rows
  | [], _ => ⟨[], rfl⟩
  | (cc, info) :: rest, h => by
      have hinfo := h (cc, info) (List.mem_cons_self _ _)
      obtain ⟨ifs, rfl⟩ : ∃ ifs, info = JVal.obj ifs := by
        cases info
        case obj ifs => exact ⟨ifs, rfl⟩
        all_goals simp [wsCountryInfo] at hinfo
      simp only [wsCountryInfo, Bool.and_eq_true] at hinfo
      have h30 : numOrFalsy ((lookupField ifs "total_last_30_days").getD (JVal.num 0)) = true := by
        rcases fieldIs_cases hinfo.1.1.1 with h0 | ⟨v, h0, hv⟩
        · rw [h0]
          decide
        · rw [h0]
          exact hv
      obtain ⟨rs, hrs⟩ := chartRowsUnsorted_ok rest (fun kv hkv => h kv (List.mem_cons_of_mem _ hkv))
      have heq : chartRowsUnsorted ((cc, JVal.obj ifs) :: rest) = Except.ok
          ((cc, (match pyOr ((lookupField ifs "total_last_30_days").getD (JVal.num 0))
              (JVal.num 0) with
            | JVal.num n => n
            | _ => 0)) :: rs) := by
        unfold chartRowsUnsorted
        rw [pyDictGet]
        simp only [py_bind_ok]
        rw [asNum_or_zero h30]
        simp only [py_bind_ok]
        rw [hrs]
        rfl
      exact ⟨_, heq⟩

/-- The country-insights view never raises on a well-shaped payload. -/
theorem display_country_insights_ok (fs : List (String × JVal))
    (hu : fieldIs fs "user" wsUserData = true)
    (hb : fieldIs fs "by_country" wsByCountryVal = true) :
    ∃ r, display_country_insights (JVal.obj fs) = Except.ok r := by
  obtain ⟨ufs, hufs, hubc⟩ : ∃ ufs,
      ((lookupField fs "user").getD (JVal.obj [])) = JVal.obj ufs ∧
      fieldIs ufs "by_country" wsByCountryVal = true := by
    rcases fieldIs_cases hu with h0 | ⟨v, h0, hv⟩
    · rw [h0]
      exact ⟨[], rfl, rfl⟩
    · obtain ⟨ufs, rfl, _, hbc⟩ := wsUserData_fields hv
      rw [h0]
      exact ⟨ufs, rfl, hbc⟩
  have hbc0 : wsByCountryVal ((lookupField ufs "by_country").getD JVal.null) = true :=
    fieldIs_getD_null (by decide) hubc
  have hbc1 : wsByCountryVal ((lookupField fs "by_country").getD JVal.null) = true :=
    fieldIs_getD_null (by decide) hb
  have hbcv : wsByCountryVal (pyOr ((lookupField ufs "by_country").getD JVal.null)
      (pyOr ((lookupField fs "by_country").getD JVal.null) (JVal.obj []))) = true := by
    unfold pyOr
    by_cases h1 : truthy ((lookupField ufs "by_country").getD JVal.null) = true
    · rw [if_pos h1]
      exact hbc0
    · rw [if_neg h1]
      by_cases h2 : truthy ((lookupField fs "by_country").getD JVal.null) = true
      · rw [if_pos h2]
        exact hbc1
      · rw [if_neg h2]
        decide
  unfold display_country_insights
  rw [pyDictGet]
  simp only [py_bind_ok]
  rw [hufs, pyDictGet]
  simp only [py_bind_ok]
  rw [pyDictGet]
  simp only [py_bind_ok]
  rcases wsByCountryVal_cases hbcv with hf | ⟨bfs, heq, htv, hall⟩
  · rw [hf]
    simp only [Bool.not_false, if_true]
    exact ⟨none, rfl⟩
  · rw [heq] at htv
    rw [heq, htv]
    simp only [Bool.not_true, Bool.false_eq_true, if_false, py_pure, py_bind_ok]
    obtain ⟨t, ht⟩ := totalNew30dSum_ok bfs hall
    obtain ⟨chart, hchart⟩ := chartRowsUnsorted_ok bfs hall
    have hbkd := breakdownTable_char bfs hall
    have hpts := pointsOfCountries_char bfs hall
    rw [ht]
    simp only [py_bind_ok]
    rw [hchart]
    simp only [py_bind_ok]
    rw [hbkd]
    simp only [py_bind_ok]
    rw [hpts]
    exact ⟨_, rfl⟩

/-- `bookingTotal` never raises when `insights` is a dict. -/
theorem bookingTotal_ok_obj (ifs : List (String × JVal)) (pv : JVal) :
    ∃ t, bookingTotal (JVal.obj ifs) pv = Except.ok t := by
  unfold bookingTotal
  exact ⟨_, rfl⟩

/-- Collecting currencies never raises on well-shaped booking items and
yields only strings. -/
theorem collectCurrencies_ok : ∀ (items : List JVal),
    (∀ it ∈ items, wsBookingItem it = true) →
    ∃ cs, collectCurrencies items = Except.ok cs ∧ ∀ c ∈ cs, ∃ s, c = JVal.str s
  | [], _ => ⟨[], rfl, by simp⟩
  | item :: rest, h => by
      have hit := h item (List.mem_cons_self _ _)
      obtain ⟨fs, rfl⟩ : ∃ fs, item = JVal.obj fs := by
        cases item
        case obj fs => exact ⟨fs, rfl⟩
        all_goals simp [wsBookingItem] at hit
      simp only [wsBookingItem, Bool.and_eq_true] at hit
      have hcur : strOrFalsy ((lookupField fs "currency").getD JVal.null) = true :=
        fieldIs_getD_null rfl hit.1.1.1.1.1.1
      obtain ⟨cs, hcs, hstr⟩ := collectCurrencies_ok rest
        (fun it hit' => h it (List.mem_cons_of_mem _ hit'))
      unfold collectCurrencies
      rw [pyDictGet]
      simp only [py_bind_ok]
      rcases strOrFalsy_cases hcur with hf | ⟨s, hseq⟩
      · rw [hf]
        simp only [Bool.false_eq_true, if_false]
        exact ⟨cs, hcs, hstr⟩
      · rw [hseq]
        by_cases hst : truthy (JVal.str s) = true
        · rw [if_pos hst]
          have hh : pyHashable (JVal.str s) = true := rfl
          rw [if_pos hh]
          rw [hcs]
          simp only [py_bind_ok, py_pure]
          refine ⟨JVal.str s :: cs, rfl, ?_⟩
          intro c hc
          rcases List.mem_cons.mp hc with rfl | hc'
          · exact ⟨s, rfl⟩
          · exact hstr c hc'
        · have hsf : truthy (JVal.str s) = false := Bool.eq_false_iff.mpr hst
          rw [hsf]
          simp only [Bool.false_eq_true, if_false]
          exact ⟨cs, hcs, hstr⟩

/-- The currency label of an `or []`-normalised well-shaped preview never
raises. -/
theorem currency_label_or_ok (pv : JVal)
    (h : wsPreviewWith wsBookingItem pv = true) :
    ∃ lab, currency_label (pyOr pv (JVal.arr [])) = Except.ok lab := by
  rcases wsPreviewWith_cases h with hf | ⟨l, rfl, ht, hall⟩
  · have hp : pyOr pv (JVal.arr []) = JVal.arr [] := by
      rw [pyOr, hf]
      simp
    rw [hp]
    exact ⟨JVal.null, rfl⟩
  · have hp : pyOr (JVal.arr l) (JVal.arr []) = JVal.arr l := by
      rw [pyOr, if_pos ht]
    rw [hp]
    obtain ⟨cs, hcs, hstr⟩ := collectCurrencies_ok l hall
    obtain ⟨sl, hsl, _⟩ := pySortedOfSet_allStr hstr
    unfold currency_label
    have hi : pyIter (JVal.arr l) = Except.ok l := rfl
    rw [hi]
    simp only [py_bind_ok]
    rw [hcs]
    simp only [py_bind_ok]
    rw [hsl]
    simp only [py_bind_ok, py_pure]
    exact ⟨_, rfl⟩

/-- The status-chart rows never raise on numeric-or-falsy counts. -/
theorem statusChartRows_ok : ∀ (sfs : List (String × JVal)),
    (∀ kv ∈ sfs, numOrFalsy kv.2 = true) →
    ∃ rows, statusChartRows sfs = Except.ok rows
  | [], _ => ⟨[], rfl⟩
  | (k, v) :: rest, h => by
      have hv := h (k, v) (List.mem_cons_self _ _)
      obtain ⟨rs, hrs⟩ := statusChartRows_ok rest
        (fun kv hkv => h kv (List.mem_cons_of_mem _ hkv))
      have heq : statusChartRows ((k, v) :: rest) = Except.ok
          ((k, match pyOr v (JVal.num 0) with | JVal.num n => n | _ => 0) :: rs) := by
        unfold statusChartRows
        rw [asNum_or_zero hv]
        simp only [py_bind_ok]
        rw [hrs]
        rfl
      exact ⟨_, heq⟩

/-- The daily-count loop never raises on well-shaped booking items. -/
theorem buildDailyCounts_ok : ∀ (items : List JVal) (acc : List (String × Int)),
    (∀ it ∈ items, wsBookingItem it = true) →
    ∃ dc, buildDailyCounts items acc = Except.ok dc
  | [], acc, _ => ⟨acc, rfl⟩
  | item :: rest, acc, h => by
      have hit := h item (List.mem_cons_self _ _)
      obtain ⟨fs, rfl⟩ : ∃ fs, item = JVal.obj fs := by
        cases item
        case obj fs => exact ⟨fs, rfl⟩
        all_goals simp [wsBookingItem] at hit
      simp only [wsBookingItem, Bool.and_eq_true] at hit
      have hft : strOrFalsy ((lookupField fs "from_time").getD JVal.null) = true :=
        fieldIs_getD_null rfl hit.1.1.1.1.1.2
      have hcr : strOrFalsy ((lookupField fs "created").getD JVal.null) = true :=
        fieldIs_getD_null rfl hit.1.1.1.2
      have hrest := fun it hit' => h it (List.mem_cons_of_mem _ hit')
      unfold buildDailyCounts
      rw [pyDictGet]
      simp only [py_bind_ok]
      rw [pyDictGet]
      simp only [py_bind_ok]
      by_cases hd : truthy (pyOr ((lookupField fs "from_time").getD JVal.null)
          ((lookupField fs "created").getD JVal.null)) = true
      · have hstr : ∃ s, pyOr ((lookupField fs "from_time").getD JVal.null)
            ((lookupField fs "created").getD JVal.null) = JVal.str s := by
          unfold pyOr at hd ⊢
          by_cases h1 : truthy ((lookupField fs "from_time").getD JVal.null) = true
          · rw [if_pos h1] at hd ⊢
            rcases strOrFalsy_cases hft with hff | ⟨s, hs⟩
            · rw [hff] at h1
              exact absurd h1 (by simp)
            · exact ⟨s, hs⟩
          · rw [if_neg h1] at hd ⊢
            rcases strOrFalsy_cases hcr with hcf | ⟨s, hs⟩
            · rw [hcf] at hd
              exact absurd hd (by simp)
            · exact ⟨s, hs⟩
        obtain ⟨s, hseq⟩ := hstr
        rw [hseq] at hd ⊢
        rw [if_pos hd]
        have hsl : pySlice (JVal.str s) 10 = Except.ok (JVal.str (s.take 10)) := rfl
        rw [hsl]
        simp only [py_bind_ok]
        exact buildDailyCounts_ok rest (upsertCount acc (s.take 10)) hrest
      · have hdf : truthy (pyOr ((lookupField fs "from_time").getD JVal.null)
            ((lookupField fs "created").getD JVal.null)) = false := Bool.eq_false_iff.mpr hd
        rw [hdf]
        simp only [Bool.false_eq_true, if_false]
        exact buildDailyCounts_ok rest acc hrest

/-- One booking preview row never raises on a well-shaped item. -/
theorem bookingRow_ok (fs : List (String × JVal))
    (h : wsBookingItem (JVal.obj fs) = true) :
    ∃ r, bookingRow (JVal.obj fs) = Except.ok r := by
  have hit := h
  simp only [wsBookingItem, Bool.and_eq_true] at hit
  have hbid : strOrFalsy ((lookupField fs "booking_id").getD JVal.null) = true :=
    fieldIs_getD_null rfl hit.1.1.2
  unfold bookingRow
  rw [pyDictGet]
  simp only [py_bind_ok]
  rcases strOrFalsy_cases hbid with hf | ⟨s, hseq⟩
  · rw [hf]
    simp only [Bool.false_eq_true, if_false, py_pure, py_bind_ok]
    obtain ⟨r, hr, _⟩ := bookingRowRest_ok fs (JVal.str "N/A") hit.1.1.1.1.1.2 hit.1.1.1.1.2
    exact ⟨r, hr⟩
  · rw [hseq]
    by_cases hst : truthy (JVal.str s) = true
    · rw [if_pos hst]
      have hpor : pyOr (JVal.str s) (JVal.str "") = JVal.str s := by
        rw [pyOr, if_pos hst]
      rw [hpor]
      have hsl : pySlice (JVal.str s) 8 = Except.ok (JVal.str (s.take 8)) := rfl
      rw [hsl]
      simp only [py_bind_ok]
      have hadd : pyAdd (JVal.str (s.take 8)) (JVal.str "...") =
          Except.ok (JVal.str (s.take 8 ++ "...")) := rfl
      rw [hadd]
      simp only [py_bind_ok]
      obtain ⟨r, hr, _⟩ := bookingRowRest_ok fs (JVal.str (s.take 8 ++ "..."))
        hit.1.1.1.1.1.2 hit.1.1.1.1.2
      exact ⟨r, hr⟩
    · have hsf : truthy (JVal.str s) = false := Bool.eq_false_iff.mpr hst
      rw [hsf]
      simp only [Bool.false_eq_true, if_false, py_pure, py_bind_ok]
      obtain ⟨r, hr, _⟩ := bookingRowRest_ok fs (JVal.str "N/A") hit.1.1.1.1.1.2 hit.1.1.1.1.2
      exact ⟨r, hr⟩

/-- The booking preview table never raises on well-shaped items. -/
theorem buildBookingRows_ok : ∀ (items : List JVal),
    (∀ it ∈ items, wsBookingItem it = true) →
    ∃ rs, buildBookingRows items = Except.ok rs
  | [], _ => ⟨[], rfl⟩
  | item :: rest, h => by
      have hit := h item (List.mem_cons_self _ _)
      obtain ⟨fs, rfl⟩ : ∃ fs, item = JVal.obj fs := by
        cases item
        case obj fs => exact ⟨fs, rfl⟩
        all_goals simp [wsBookingItem] at hit
      obtain ⟨r, hr⟩ := bookingRow_ok fs hit
      obtain ⟨rs, hrs⟩ := buildBookingRows_ok rest
        (fun it hit' => h it (List.mem_cons_of_mem _ hit'))
      refine ⟨r :: rs, ?_⟩
      unfold buildBookingRows
      rw [hr]
      simp only [py_bind_ok]
      rw [hrs]
      rfl

/-- The top-provider ranking never raises on well-shaped items. -/
theorem topProviders_ok (items : List JVal)
    (h : ∀ it ∈ items, wsBookingItem it = true) :
    ∃ tp, topProviders items = Except.ok tp := by
  unfold topProviders
  rw [buildProviderRev_char items [] h]
  simp only [py_bind_ok]
  exact ⟨_, rfl⟩

/-- A well-shaped `insights` record is a dict whose `by_status` value (when
present) is falsy or a dict of numeric-or-falsy counts. -/
theorem wsInsights_fields {v : JVal} (h : wsInsights v = true) :
    ∃ ifs, v = JVal.obj ifs ∧
      fieldIs ifs "by_status" (fun w => !truthy w ||
        (match w with
          | JVal.obj sfs => sfs.all (fun kv => numOrFalsy kv.2)
          | _ => false)) = true := by
  cases v with
  | obj ifs =>
      simp only [wsInsights, Bool.and_eq_true] at h
      exact ⟨ifs, rfl, h.1.1.2⟩
  | null => simp [wsInsights] at h
  | bool b => simp [wsInsights] at h
  | num n => simp [wsInsights] at h
  | str s => simp [wsInsights] at h
  | arr l => simp [wsInsights] at h

/-- Case split on a well-shaped `by_status` value. -/
theorem wsByStatusVal_cases {v : JVal}
    (h : (!truthy v ||
      (match v with
        | JVal.obj sfs => sfs.all (fun kv => numOrFalsy kv.2)
        | _ => false)) = true) :
    truthy v = false ∨ ∃ sfs, v = JVal.obj sfs ∧ truthy v = true ∧
      ∀ kv ∈ sfs, numOrFalsy kv.2 = true := by
  by_cases ht : truthy v = true
  · right
    rw [ht] at h
    simp only [Bool.not_true, Bool.false_or] at h
    cases v with
    | obj sfs => exact ⟨sfs, rfl, ht, List.all_eq_true.mp h⟩
    | null => simp at h
    | bool b => simp at h
    | num n => simp at h
    | str s => simp at h
    | arr l => simp at h
  · exact .inl (by simpa using ht)

/-- A well-shaped `last_30_days` record is a dict with classified
`insights` and `preview` fields. -/
theorem wsLast30_fields {v : JVal} (h : wsLast30 v = true) :
    ∃ lfs, v = JVal.obj lfs ∧ fieldIs lfs "insights" wsInsights = true ∧
      fieldIs lfs "preview" (wsPreviewWith wsBookingItem) = true := by
  cases v with
  | obj lfs =>
      simp only [wsLast30, Bool.and_eq_true] at h
      exact ⟨lfs, rfl, h.1, h.2⟩
  | null => simp [wsLast30] at h
  | bool b => simp [wsLast30] at h
  | num n => simp [wsLast30] at h
  | str s => simp [wsLast30] at h
  | arr l => simp [wsLast30] at h

/-- A well-shaped `booking` record is a dict with a classified
`last_30_days` field. -/
theorem wsBookingData_fields {v : JVal} (h : wsBookingData v = true) :
    ∃ bfs, v = JVal.obj bfs ∧ fieldIs bfs "last_30_days" wsLast30 = true := by
  cases v with
  | obj bfs => exact ⟨bfs, rfl, h⟩
  | null => simp [wsBookingData] at h
  | bool b => simp [wsBookingData] at h
  | num n => simp [wsBookingData] at h
  | str s => simp [wsBookingData] at h
  | arr l => simp [wsBookingData] at h

/-- The booking-insights body never raises given a well-shaped `insights`
dict and preview value. -/
theorem display_booking_insights_body_ok (ifs : List (String × JVal)) (pv0 : JVal)
    (hbs : fieldIs ifs "by_status" (fun w => !truthy w ||
      (match w with
        | JVal.obj sfs => sfs.all (fun kv => numOrFalsy kv.2)
        | _ => false)) = true)
    (hpv : wsPreviewWith wsBookingItem pv0 = true) :
    ∃ r, display_booking_insights_body (JVal.obj ifs) (pyOr pv0 (JVal.arr [])) =
      Except.ok r := by
  have hbs0 : (!truthy ((lookupField ifs "by_status").getD JVal.null) ||
      (match (lookupField ifs "by_status").getD JVal.null with
        | JVal.obj sfs => sfs.all (fun kv => numOrFalsy kv.2)
        | _ => false)) = true := fieldIs_getD_null rfl hbs
  obtain ⟨t, htot⟩ := bookingTotal_ok_obj ifs (pyOr pv0 (JVal.arr []))
  obtain ⟨lab, hlab⟩ := currency_label_or_ok pv0 hpv
  unfold display_booking_insights_body
  rw [htot]
  simp only [py_bind_ok]
  rw [pyDictGet]
  simp only [py_bind_ok]
  rw [pyDictGet]
  simp only [py_bind_ok]
  rw [pyDictGet]
  simp only [py_bind_ok]
  rw [hlab]
  simp only [py_bind_ok]
  rcases wsByStatusVal_cases hbs0 with hbf | ⟨sfs, hseq, hbt, hallbs⟩
  · have hpor : pyOr ((lookupField ifs "by_status").getD JVal.null) (JVal.obj []) =
        JVal.obj [] := by
      rw [pyOr, hbf]
      simp
    rw [hpor]
    have hgc : pyDictGet (JVal.obj []) "COMPLETED" (JVal.num 0) = Except.ok (JVal.num 0) := rfl
    rw [hgc]
    simp only [py_bind_ok]
    have hgb : pyDictGet (JVal.obj []) "BOOKED" (JVal.num 0) = Except.ok (JVal.num 0) := rfl
    rw [hgb]
    simp only [py_bind_ok]
    have htB : truthy (JVal.obj []) = false := rfl
    rw [htB]
    simp only [Bool.false_eq_true, if_false, py_pure, py_bind_ok]
    rcases wsPreviewWith_cases hpv with hpf | ⟨l, hpl, hpt, hallp⟩
    · have hprv : pyOr pv0 (JVal.arr []) = JVal.arr [] := by
        rw [pyOr, hpf]
        simp
      rw [hprv]
      have htP : truthy (JVal.arr []) = false := rfl
      rw [htP]
      simp only [Bool.false_eq_true, if_false, py_pure, py_bind_ok]
      exact ⟨_, rfl⟩
    · rw [hpl] at hpt ⊢
      have hprv : pyOr (JVal.arr l) (JVal.arr []) = JVal.arr l := by
        rw [pyOr, if_pos hpt]
      rw [hprv]
      rw [if_pos hpt]
      have hpi : pyIter (JVal.arr l) = Except.ok l := rfl
      rw [hpi]
      simp only [py_bind_ok]
      obtain ⟨dc, hdc⟩ := buildDailyCounts_ok l [] hallp
      rw [hdc]
      simp only [py_bind_ok, py_pure]
      rw [if_pos hpt]
      obtain ⟨tp, htp⟩ := topProviders_ok l hallp
      rw [htp]
      simp only [py_bind_ok]
      rw [if_pos hpt]
      obtain ⟨rs, hrs⟩ := buildBookingRows_ok l hallp
      rw [hrs]
      simp only [py_bind_ok, py_pure]
      exact ⟨_, rfl⟩
  · rw [hseq] at hbt
    rw [hseq]
    have hpor : pyOr (JVal.obj sfs) (JVal.obj []) = JVal.obj sfs := by
      rw [pyOr, if_pos hbt]
    rw [hpor]
    have hgc : pyDictGet (JVal.obj sfs) "COMPLETED" (JVal.num 0) =
        Except.ok ((lookupField sfs "COMPLETED").getD (JVal.num 0)) := rfl
    rw [hgc]
    simp only [py_bind_ok]
    have hgb : pyDictGet (JVal.obj sfs) "BOOKED" (JVal.num 0) =
        Except.ok ((lookupField sfs "BOOKED").getD (JVal.num 0)) := rfl
    rw [hgb]
    simp only [py_bind_ok]
    rw [if_pos hbt]
    simp only [py_pure, py_bind_ok]
    obtain ⟨scr, hscr⟩ := statusChartRows_ok sfs hallbs
    rw [hscr]
    simp only [py_bind_ok]
    rcases wsPreviewWith_cases hpv with hpf | ⟨l, hpl, hpt, hallp⟩
    · have hprv : pyOr pv0 (JVal.arr []) = JVal.arr [] := by
        rw [pyOr, hpf]
        simp
      rw [hprv]
      have htP : truthy (JVal.arr []) = false := rfl
      rw [htP]
      simp only [Bool.false_eq_true, if_false, py_pure, py_bind_ok]
      exact ⟨_, rfl⟩
    · rw [hpl] at hpt ⊢
      have hprv : pyOr (JVal.arr l) (JVal.arr []) = JVal.arr l := by
        rw [pyOr, if_pos hpt]
      rw [hprv]
      rw [if_pos hpt]
      have hpi : pyIter (JVal.arr l) = Except.ok l := rfl
      rw [hpi]
      simp only [py_bind_ok]
      obtain ⟨dc, hdc⟩ := buildDailyCounts_ok l [] hallp
      rw [hdc]
      simp only [py_bind_ok, py_pure]
      rw [if_pos hpt]
      obtain ⟨tp, htp⟩ := topProviders_ok l hallp
      rw [htp]
      simp only [py_bind_ok]
      rw [if_pos hpt]
      obtain ⟨rs, hrs⟩ := buildBookingRows_ok l hallp
      rw [hrs]
      simp only [py_bind_ok, py_pure]
      exact ⟨_, rfl⟩

/-- The booking-insights view never raises on a well-shaped payload. -/
theorem display_booking_insights_ok (fs : List (String × JVal))
    (hb : fieldIs fs "booking" wsBookingData = true) :
    ∃ r, display_booking_insights (JVal.obj fs) = Except.ok r := by
  obtain ⟨bfs, hbeq, hl30⟩ : ∃ bfs,
      (lookupField fs "booking").getD (JVal.obj []) = JVal.obj bfs ∧
      fieldIs bfs "last_30_days" wsLast30 = true := by
    rcases fieldIs_cases hb with h0 | ⟨v, h0, hv⟩
    · rw [h0]
      exact ⟨[], rfl, rfl⟩
    · obtain ⟨bfs, rfl, hl⟩ := wsBookingData_fields hv
      rw [h0]
      exact ⟨bfs, rfl, hl⟩
  obtain ⟨lfs, hleq, hins, hprev⟩ : ∃ lfs,
      (lookupField bfs "last_30_days").getD (JVal.obj []) = JVal.obj lfs ∧
      fieldIs lfs "insights" wsInsights = true ∧
      fieldIs lfs "preview" (wsPreviewWith wsBookingItem) = true := by
    rcases fieldIs_cases hl30 with h0 | ⟨v, h0, hv⟩
    · rw [h0]
      exact ⟨[], rfl, rfl, rfl⟩
    · obtain ⟨lfs, rfl, h1, h2⟩ := wsLast30_fields hv
      rw [h0]
      exact ⟨lfs, rfl, h1, h2⟩
  obtain ⟨ifs, hieq, hibs⟩ : ∃ ifs,
      (lookupField lfs "insights").getD (JVal.obj []) = JVal.obj ifs ∧
      fieldIs ifs "by_status" (fun w => !truthy w ||
        (match w with
          | JVal.obj sfs => sfs.all (fun kv => numOrFalsy kv.2)
          | _ => false)) = true := by
    rcases fieldIs_cases hins with h0 | ⟨v, h0, hv⟩
    · rw [h0]
      exact ⟨[], rfl, rfl⟩
    · obtain ⟨ifs, rfl, h1⟩ := wsInsights_fields hv
      rw [h0]
      exact ⟨ifs, rfl, h1⟩
  have hpv0 : wsPreviewWith wsBookingItem ((lookupField lfs "preview").getD JVal.null) = true :=
    fieldIs_getD_null rfl hprev
  unfold display_booking_insights
  rw [pyDictGet]
  simp only [py_bind_ok]
  rw [hbeq, pyDictGet]
  simp only [py_bind_ok]
  rw [hleq, pyDictGet]
  simp only [py_bind_ok]
  rw [hieq, pyDictGet]
  simp only [py_bind_ok]
  by_cases hlt : truthy (JVal.obj lfs) = true
  · rw [hlt]
    simp only [Bool.not_true, Bool.false_eq_true, if_false]
    obtain ⟨r, hbody⟩ := display_booking_insights_body_ok ifs
      ((lookupField lfs "preview").getD JVal.null) hibs hpv0
    rw [hbody]
    simp only [py_bind_ok, py_pure]
    exact ⟨some r, rfl⟩
  · have hlf : truthy (JVal.obj lfs) = false := Bool.eq_false_iff.mpr hlt
    rw [hlf]
    simp only [Bool.not_false, if_true]
    exact ⟨none, rfl⟩

/-- C1: The spec claims every operation is total for every payload,
including present-null and wrong-shaped values.  COUNTEREXAMPLE: a present
`user: null` makes the overview raise (`None.get` on src/app.py line 175),
and a preview item with `created: null` makes the per-type metrics raise
(`None[:10]` on src/app.py line 258) — `.get` defaults guard only ABSENT
keys, not present null values. -/
theorem C1_totality_cex :
    pyOk (display_overview_metrics (JVal.obj [("user", JVal.null)])) = false ∧
    pyOk (display_metrics_by_type (JVal.obj [("user", JVal.obj [("types", JVal.obj
      [("customer", JVal.obj [("new_24_hours", JVal.obj [("count", JVal.num 1),
        ("preview", JVal.arr [JVal.obj [("display_name", JVal.str "A"),
          ("created", JVal.null)]])])])])])]) "customer") = false :=
  ⟨rfl, rfl⟩

/-- C1 (amended): Every operation (overview, per-type metrics, country
insights, booking insights) is total on well-shaped payloads: any subset of
keys may be absent — absence is normalized to zero/empty defaults — and
present values have the shapes the code dereferences (`wsPayload`).  The
unrestricted claim is false (see the counterexample): a present null or
wrong-shaped value where the code slices, sums, or calls `.get` raises. -/
theorem C1_totality_amended (fs : List (String × JVal))
    (h : wsPayload (JVal.obj fs) = true) :
    (∃ r, display_overview_metrics (JVal.obj fs) = Except.ok r) ∧
    (∀ ut, ut = "customer" ∨ ut = "artist" ∨ ut = "business" →
      ∃ r, display_metrics_by_type (JVal.obj fs) ut = Except.ok r) ∧
    (∃ r, display_country_insights (JVal.obj fs) = Except.ok r) ∧
    (∃ r, display_booking_insights (JVal.obj fs) = Except.ok r) := by
  have h' := h
  simp only [wsPayload, Bool.and_eq_true] at h'
  exact ⟨display_overview_metrics_ok fs h'.1.1,
    fun ut hut => display_metrics_by_type_ok fs ut h'.1.1 hut,
    display_country_insights_ok fs h'.1.1 h'.1.2,
    display_booking_insights_ok fs h'.2⟩

/-- C1 witness: the concrete payload `c1Fields` is well-shaped and all four
operations succeed on it. -/
theorem C1_totality_amended_witness :
    wsPayload (JVal.obj c1Fields) = true ∧
    ((∃ r, display_overview_metrics (JVal.obj c1Fields) = Except.ok r) ∧
     (∀ ut, ut = "customer" ∨ ut = "artist" ∨ ut = "business" →
       ∃ r, display_metrics_by_type (JVal.obj c1Fields) ut = Except.ok r) ∧
     (∃ r, display_country_insights (JVal.obj c1Fields) = Except.ok r) ∧
     (∃ r, display_booking_insights (JVal.obj c1Fields) = Except.ok r)) :=
  ⟨by decide, C1_totality_amended c1Fields (by decide)⟩
